import Mathlib

/-!
# Decoder resolution and scalar coercions (`encoding/decoder_types.go`)

A shallow embedding of the Go file `encoding/decoder_types.go`.

* Types (`reflect.Type`) are finite trees: a non-pointer type is a name with a
  kind, a pointer type has an element type.
* Memory is a map from addresses to stored data with an allocation counter; a
  `reflect.Value` is either a settable location (`Value.loc`) or a plain,
  non-addressable value (`Value.rv`).
* A Go `panic` is an explicit outcome that carries the state reached when the
  panic was raised.
* The pieces of the Go standard library that the file calls are modelled from
  their documented behaviour: `reflect` getters and setters, `reflect.New`,
  `strconv.ParseBool`, `strconv.ParseUint`, `strconv.ParseInt`,
  `strconv.FormatUint`, `strconv.FormatInt`.  Floating-point arithmetic,
  float parsing and formatting, and `reflect.Type.AssignableTo` are taken as
  parameters (`Lib`).
* `int`, `uint` and `uintptr` are 64 bits wide.
* The claims on string sources are stated against `integerLiteral` and
  `unsignedLiteral`, which say what an integer literal denotes on unbounded
  numbers; `ParseInt_iff` and `ParseUint_iff` relate the parsers to them.
-/

namespace Encoding

/-! ## Types -/

/-- The kinds a `reflect.Type` can have (`reflect.Kind` without `Invalid`). -/
inductive Kind
  | Bool | Int | Int8 | Int16 | Int32 | Int64
  | Uint | Uint8 | Uint16 | Uint32 | Uint64 | Uintptr
  | Float32 | Float64 | Complex64 | Complex128
  | Array | Chan | Func | Interface | Map | Ptr | Slice | String | Struct
  | UnsafePointer
  deriving DecidableEq, Repr

/-- A `reflect.Type`.  `basic name k` is a type of kind `k` (any kind but
`Ptr`) identified by its name; `ptr name elem` is a pointer type with element
type `elem`, where the name is empty for the unnamed type `*elem`. -/
inductive GoType
  | basic (name : String) (k : Kind) (notPtr : k ≠ Kind.Ptr)
  | ptr (name : String) (elem : GoType)
  deriving DecidableEq

/-- The method `Type.Kind`. -/
def GoType.Kind : GoType → Kind
  | .basic _ k _ => k
  | .ptr _ _ => Kind.Ptr

/-- The method `Type.String`. -/
def GoType.String : GoType → String
  | .basic name _ _ => name
  | .ptr name elem => if name = "" then "*" ++ elem.String else name

/-- The type `*t` (`reflect.PointerTo`). -/
def PointerTo (t : GoType) : GoType := .ptr "" t

/-! ## Failures -/

/-- The error values of `strconv` (`ErrSyntax`, `ErrRange`, and the errors for
an illegal base or bit size). -/
inductive NumErrKind
  | ErrSyntax
  | ErrRange
  | ErrBase (base : Nat)
  | ErrBitSize (bitSize : Nat)
  deriving DecidableEq, Repr

/-- The type `strconv.NumError`. -/
structure NumError where
  Func : String
  Num : String
  Err : NumErrKind
  deriving DecidableEq, Repr

/-- The values a decoder can panic with: the four error types of the package
(fields in the order of the composite literals of the source) and the run-time
panics raised inside package `reflect`. -/
inductive Panic
  | UnsupportedTypeError (t : GoType)
  | UnexpectedTypeError (dt st : GoType)
  | UnconvertibleTypeError (dt st : GoType)
  | InvalidTypeError (dt st : GoType) (err : NumError)
  | Reflect (msg : String)
  deriving DecidableEq

/-! ## Values and memory -/

/-- A `float64`, kept as an uninterpreted bit pattern. -/
structure Float64 where
  bits : Nat
  deriving DecidableEq, Repr

/-- What a memory cell or a value holds. -/
inductive Data
  | bool (b : Bool)
  | int (i : Int)
  | uint (u : Nat)
  | float (f : Float64)
  | str (s : String)
  | ptr (addr : Option Nat)
  | ifaceNil
  | iface (typ : GoType) (d : Data)
  | composite (tag : Nat)
  deriving DecidableEq

/-- The program state: memory, the next free address, and the values printed
so far. -/
structure State where
  mem : Nat → Data
  next : Nat
  out : List Data

/-- A `reflect.Value`: an addressable, settable location of a type, or a value
that is not addressable. -/
inductive Value
  | loc (typ : GoType) (addr : Nat)
  | rv (typ : GoType) (d : Data)
  deriving DecidableEq

/-- The result of running a decoder: it returns, or it panics. -/
inductive Outcome
  | ok (s : State)
  | panic (e : Panic) (s : State)

/-- The Go type `decoderFunc`, `func(dv, sv reflect.Value)`. -/
abbrev decoderFunc := Value → Value → State → Outcome

/-- Library behaviour taken as a parameter. -/
structure Lib where
  /-- The method `src.AssignableTo(dst)` of `reflect.Type`. -/
  AssignableTo : GoType → GoType → Bool
  /-- The function `strconv.ParseFloat(s, bitSize)`. -/
  ParseFloat : String → Nat → Float64 × Option NumError
  /-- The function `strconv.FormatFloat(f, 'f', -1, 64)`. -/
  FormatFloat : Float64 → String
  /-- The conversion `float64(i)` of an `int64`. -/
  floatOfInt : Int → Float64
  /-- The conversion `float64(u)` of a `uint64`. -/
  floatOfUint : Nat → Float64
  /-- The conversion `int64(f)`. -/
  intOfFloat : Float64 → Int
  /-- The conversion `uint64(f)`. -/
  uintOfFloat : Float64 → Nat
  /-- The comparison `f != 0`. -/
  floatNeZero : Float64 → Bool
  /-- The rounding `float64(float32(f))` done when a `float32` is stored. -/
  float32 : Float64 → Float64

namespace State

/-- Overwrite one cell. -/
def store (s : State) (a : Nat) (d : Data) : State :=
  { s with mem := fun b => if b = a then d else s.mem b }

end State

/-- Size in bits of `int`, `uint` and `uintptr` (`strconv.IntSize`). -/
def IntSize : Nat := 64

/-- The value `v` reduced to the signed `w`-bit range (two's complement). -/
def wrapInt (w : Nat) (i : Int) : Int :=
  (i + 2 ^ (w - 1)) % 2 ^ w - 2 ^ (w - 1)

/-- The value `u` reduced to the unsigned `w`-bit range. -/
def wrapUint (w : Nat) (u : Nat) : Nat := u % 2 ^ w

/-- Width of the integer and float kinds; `none` for every other kind. -/
def Kind.size : Kind → Option Nat
  | .Int => some IntSize | .Int8 => some 8 | .Int16 => some 16
  | .Int32 => some 32 | .Int64 => some 64
  | .Uint => some IntSize | .Uint8 => some 8 | .Uint16 => some 16
  | .Uint32 => some 32 | .Uint64 => some 64 | .Uintptr => some IntSize
  | .Float32 => some 32 | .Float64 => some 64
  | .Complex64 => some 64 | .Complex128 => some 128
  | _ => none

/-- The method `Type.Bits`: panics unless the kind is a sized or unsized Int,
Uint, Float or Complex kind. -/
def GoType.Bits (t : GoType) : Except Panic Nat :=
  match t.Kind.size with
  | some n => .ok n
  | none => .error (.Reflect ("reflect: Bits of non-arithmetic Type " ++ t.String))

/-- The method `Type.Elem`, for the pointer types of this model; it panics on a
type that has no element type. -/
def GoType.Elem : GoType → Except Panic GoType
  | .ptr _ elem => .ok elem
  | .basic name _ _ => .error (.Reflect ("reflect: Elem of invalid type " ++ name))

/-- The zero value of a type (`reflect.Zero`). -/
def zeroOf (t : GoType) : Data :=
  match t.Kind with
  | .Bool => .bool false
  | .Int | .Int8 | .Int16 | .Int32 | .Int64 => .int 0
  | .Uint | .Uint8 | .Uint16 | .Uint32 | .Uint64 | .Uintptr => .uint 0
  | .Float32 | .Float64 => .float ⟨0⟩
  | .String => .str ""
  | .Ptr => .ptr none
  | .Interface => .ifaceNil
  | _ => .composite 0

/-- Reading stored data at a bool, integer, float or string type. -/
def Data.asBool : Data → Bool
  | .bool b => b
  | _ => false

/-- Reading stored data at a signed integer type. -/
def Data.asInt : Data → Int
  | .int i => i
  | _ => 0

/-- Reading stored data at an unsigned integer type. -/
def Data.asUint : Data → Nat
  | .uint u => u
  | _ => 0

/-- Reading stored data at a float type. -/
def Data.asFloat : Data → Float64
  | .float f => f
  | _ => ⟨0⟩

/-- Reading stored data at a string type. -/
def Data.asString : Data → String
  | .str s => s
  | _ => ""

/-- The method `Value.Type`. -/
def Value.Typ : Value → GoType
  | .loc t _ => t
  | .rv t _ => t

/-- The method `Value.Kind`. -/
def Value.Kind (v : Value) : Kind := v.Typ.Kind

/-- What the value currently holds. -/
def Value.load (v : Value) (s : State) : Data :=
  match v with
  | .loc _ a => s.mem a
  | .rv _ d => d

/-- The method `Value.CanSet`. -/
def Value.CanSet : Value → Bool
  | .loc _ _ => true
  | .rv _ _ => false

/-- The method `Value.SetBool`: panics if the value is not settable or its kind
is not `Bool`. -/
def Value.SetBool (v : Value) (x : Bool) (s : State) : Outcome :=
  match v with
  | .rv _ _ => .panic (.Reflect "reflect: reflect.Value.SetBool using unaddressable value") s
  | .loc t a =>
    match t.Kind with
    | .Bool => .ok (s.store a (.bool x))
    | _ => .panic (.Reflect "reflect: call of reflect.Value.SetBool on non-bool Value") s

/-- The method `Value.SetInt`: stores `x` truncated to the width of the
destination; panics if the value is not settable or its kind is not a signed
integer kind. -/
def Value.SetInt (v : Value) (x : Int) (s : State) : Outcome :=
  match v with
  | .rv _ _ => .panic (.Reflect "reflect: reflect.Value.SetInt using unaddressable value") s
  | .loc t a =>
    match t.Kind with
    | .Int => .ok (s.store a (.int (wrapInt IntSize x)))
    | .Int8 => .ok (s.store a (.int (wrapInt 8 x)))
    | .Int16 => .ok (s.store a (.int (wrapInt 16 x)))
    | .Int32 => .ok (s.store a (.int (wrapInt 32 x)))
    | .Int64 => .ok (s.store a (.int (wrapInt 64 x)))
    | _ => .panic (.Reflect "reflect: call of reflect.Value.SetInt on non-int Value") s

/-- The method `Value.SetUint`: stores `x` truncated to the width of the
destination; panics if the value is not settable or its kind is not an unsigned
integer kind. -/
def Value.SetUint (v : Value) (x : Nat) (s : State) : Outcome :=
  match v with
  | .rv _ _ => .panic (.Reflect "reflect: reflect.Value.SetUint using unaddressable value") s
  | .loc t a =>
    match t.Kind with
    | .Uint => .ok (s.store a (.uint (wrapUint IntSize x)))
    | .Uint8 => .ok (s.store a (.uint (wrapUint 8 x)))
    | .Uint16 => .ok (s.store a (.uint (wrapUint 16 x)))
    | .Uint32 => .ok (s.store a (.uint (wrapUint 32 x)))
    | .Uint64 => .ok (s.store a (.uint (wrapUint 64 x)))
    | .Uintptr => .ok (s.store a (.uint (wrapUint IntSize x)))
    | _ => .panic (.Reflect "reflect: call of reflect.Value.SetUint on non-uint Value") s

/-- The method `Value.SetFloat`: panics if the value is not settable or its
kind is not a float kind. -/
def Value.SetFloat (L : Lib) (v : Value) (x : Float64) (s : State) : Outcome :=
  match v with
  | .rv _ _ => .panic (.Reflect "reflect: reflect.Value.SetFloat using unaddressable value") s
  | .loc t a =>
    match t.Kind with
    | .Float32 => .ok (s.store a (.float (L.float32 x)))
    | .Float64 => .ok (s.store a (.float x))
    | _ => .panic (.Reflect "reflect: call of reflect.Value.SetFloat on non-float Value") s

/-- The method `Value.SetString`: panics if the value is not settable or its
kind is not `String`. -/
def Value.SetString (v : Value) (x : String) (s : State) : Outcome :=
  match v with
  | .rv _ _ => .panic (.Reflect "reflect: reflect.Value.SetString using unaddressable value") s
  | .loc t a =>
    match t.Kind with
    | .String => .ok (s.store a (.str x))
    | _ => .panic (.Reflect "reflect: call of reflect.Value.SetString on non-string Value") s

/-- The method `Value.Interface`: the value boxed as an `interface{}`. -/
def Value.Interface (v : Value) (s : State) : Data :=
  match v.Kind with
  | .Interface => v.load s
  | _ => .iface v.Typ (v.load s)

/-- The method `Value.Float`: panics if the kind is not a float kind. -/
def Value.Float (v : Value) (s : State) : Except Panic Float64 :=
  match v.Kind with
  | .Float32 => .ok (v.load s).asFloat
  | .Float64 => .ok (v.load s).asFloat
  | _ => .error (.Reflect "reflect: call of reflect.Value.Float on non-float Value")

/-- The method `Value.Uint`: the value as a `uint64`; panics if the kind is not
an unsigned integer kind. -/
def Value.Uint (v : Value) (s : State) : Except Panic Nat :=
  match v.Kind with
  | .Uint => .ok (wrapUint IntSize (v.load s).asUint)
  | .Uint8 => .ok (wrapUint 8 (v.load s).asUint)
  | .Uint16 => .ok (wrapUint 16 (v.load s).asUint)
  | .Uint32 => .ok (wrapUint 32 (v.load s).asUint)
  | .Uint64 => .ok (wrapUint 64 (v.load s).asUint)
  | .Uintptr => .ok (wrapUint IntSize (v.load s).asUint)
  | _ => .error (.Reflect "reflect: call of reflect.Value.Uint on non-uint Value")

/-- The method `Value.Int`: the value as an `int64`; panics if the kind is not
a signed integer kind. -/
def Value.Int (v : Value) (s : State) : Except Panic Int :=
  match v.Kind with
  | .Int => .ok (wrapInt IntSize (v.load s).asInt)
  | .Int8 => .ok (wrapInt 8 (v.load s).asInt)
  | .Int16 => .ok (wrapInt 16 (v.load s).asInt)
  | .Int32 => .ok (wrapInt 32 (v.load s).asInt)
  | .Int64 => .ok (wrapInt 64 (v.load s).asInt)
  | _ => .error (.Reflect "reflect: call of reflect.Value.Int on non-int Value")

/-- The method `Value.Bool`: panics if the kind is not `Bool`. -/
def Value.Bool (v : Value) (s : State) : Except Panic Bool :=
  match v.Kind with
  | .Bool => .ok (v.load s).asBool
  | _ => .error (.Reflect "reflect: call of reflect.Value.Bool on non-bool Value")

/-- The method `Value.String`: the string held by a value of kind `String`, and
the text `<T Value>` for a value of any other type `T`; it never panics. -/
def Value.String (v : Value) (s : State) : String :=
  match v.Kind with
  | .String => (v.load s).asString
  | _ => "<" ++ v.Typ.String ++ " Value>"

/-- The method `Value.Set`: panics if the value is not settable or the type of
`x` is not assignable to its type; a value stored into an interface is boxed. -/
def Value.Set (L : Lib) (v x : Value) (s : State) : Outcome :=
  match v with
  | .rv _ _ => .panic (.Reflect "reflect: reflect.Value.Set using unaddressable value") s
  | .loc t a =>
    if L.AssignableTo x.Typ t then
      match t.Kind with
      | .Interface => .ok (s.store a (x.Interface s))
      | _ => .ok (s.store a (x.load s))
    else
      .panic (.Reflect ("reflect.Set: value of type " ++ x.Typ.String ++
        " is not assignable to type " ++ t.String)) s

/-- The function `reflect.Zero`. -/
def Zero (t : GoType) : Value := .rv t (zeroOf t)

/-- The function `reflect.New`: allocates a zero value of type `t` and returns
a value of type `*t` that points to it.  The returned value is a pointer, and
it is not addressable. -/
def New (t : GoType) (s : State) : Value × State :=
  (.rv (PointerTo t) (.ptr (some s.next)),
   { mem := fun b => if b = s.next then zeroOf t else s.mem b,
     next := s.next + 1,
     out := s.out })

/-- The call `pp.Println(x)`: the value is written to standard output. -/
def ppPrintln (x : Data) (s : State) : State :=
  { s with out := s.out ++ [x] }

/-! ## Package `strconv` -/

/-- The helper `syntaxError` of `strconv`. -/
def syntaxError (fn str : String) : NumError := ⟨fn, str, .ErrSyntax⟩

/-- The helper `rangeError` of `strconv`. -/
def rangeError (fn str : String) : NumError := ⟨fn, str, .ErrRange⟩

/-- The helper `baseError` of `strconv`. -/
def baseError (fn str : String) (base : Nat) : NumError := ⟨fn, str, .ErrBase base⟩

/-- The helper `bitSizeError` of `strconv`. -/
def bitSizeError (fn str : String) (bitSize : Nat) : NumError :=
  ⟨fn, str, .ErrBitSize bitSize⟩

/-- The function `strconv.ParseBool`. -/
def ParseBool (str : String) : Bool × Option NumError :=
  if str = "1" ∨ str = "t" ∨ str = "T" ∨ str = "true" ∨ str = "TRUE" ∨ str = "True" then
    (true, none)
  else if str = "0" ∨ str = "f" ∨ str = "F" ∨ str = "false" ∨ str = "FALSE" ∨
      str = "False" then
    (false, none)
  else
    (false, some (syntaxError "ParseBool" str))

/-- The helper `lower` of `strconv`: `c | ('x' - 'X')`, on the character code. -/
def lower (c : Char) : Nat := c.toNat ||| 32

/-- The value of a character as a digit, as computed in the loop of
`strconv.ParseUint`: `'0'..'9'` are 0..9, letters of either case are 10..35,
anything else is not a digit. -/
def digitVal (c : Char) : Option Nat :=
  if 48 ≤ c.toNat ∧ c.toNat ≤ 57 then some (c.toNat - 48)
  else if 97 ≤ lower c ∧ lower c ≤ 122 then some (lower c - 97 + 10)
  else none

/-- The helper `underscoreOK` of `strconv`, after the optional sign and base
marker have been read: `saw` is the class of the last character seen
(`'^'`, `'0'`, `'_'` or `'!'`). -/
def underscoreLoop (hex : Bool) : List Char → Char → Bool
  | [], saw => saw ≠ '_'
  | c :: cs, saw =>
    if (48 ≤ c.toNat ∧ c.toNat ≤ 57) ∨ (hex = true ∧ 97 ≤ lower c ∧ lower c ≤ 102) then
      underscoreLoop hex cs '0'
    else if c = '_' then
      if saw ≠ '0' then false else underscoreLoop hex cs '_'
    else if saw = '_' then false
    else underscoreLoop hex cs '!'

/-- The helper `underscoreOK` of `strconv`: underscores may only separate
digits, or a base marker from the digits. -/
def underscoreOK (s : List Char) : Bool :=
  let s := match s with
    | c :: cs => if c = '-' ∨ c = '+' then cs else c :: cs
    | [] => []
  match s with
  | c0 :: c1 :: cs =>
    if c0 = '0' ∧ (lower c1 = 98 ∨ lower c1 = 111 ∨ lower c1 = 120) then
      underscoreLoop (decide (lower c1 = 120)) cs '0'
    else underscoreLoop false s '^'
  | _ => underscoreLoop false s '^'

/-- The choice of base made by `strconv.ParseUint` for `base == 0`: the base
and the characters that remain after the marker. -/
def detectBase : List Char → Nat × List Char
  | [] => (10, [])
  | c :: rest =>
    if c = '0' then
      match rest with
      | c1 :: c2 :: tl =>
        if lower c1 = 98 then (2, c2 :: tl)
        else if lower c1 = 111 then (8, c2 :: tl)
        else if lower c1 = 120 then (16, c2 :: tl)
        else (8, rest)
      | _ => (8, rest)
    else (10, c :: rest)

/-- The digit loop of `strconv.ParseUint`: the value read and whether an
underscore was seen, or the error at which the loop stops.  Arithmetic is on
`uint64`. -/
def parseLoop (base : Nat) (base0 : Bool) (cutoff maxVal : Nat) :
    List Char → Nat → Bool → Except NumErrKind (Nat × Bool)
  | [], n, underscores => .ok (n, underscores)
  | c :: cs, n, underscores =>
    if c = '_' ∧ base0 = true then parseLoop base base0 cutoff maxVal cs n true
    else
      match digitVal c with
      | none => .error .ErrSyntax
      | some d =>
        if d ≥ base then .error .ErrSyntax
        else if n ≥ cutoff then .error .ErrRange
        else
          let n := n * base
          let n1 := (n + d) % 2 ^ 64
          if n1 < n ∨ n1 > maxVal then .error .ErrRange
          else parseLoop base base0 cutoff maxVal cs n1 underscores

/-- The function `strconv.ParseUint(s, base, bitSize)`: the value and the
error, as Go returns them. -/
def ParseUint (s : String) (base bitSize : Nat) : Nat × Option NumError :=
  if s = "" then (0, some (syntaxError "ParseUint" s))
  else
    let base0 := decide (base = 0)
    let chosen : Option (Nat × List Char) :=
      if 2 ≤ base ∧ base ≤ 36 then some (base, s.data)
      else if base = 0 then some (detectBase s.data)
      else none
    match chosen with
    | none => (0, some (baseError "ParseUint" s base))
    | some (b, cs) =>
      if bitSize > 64 then (0, some (bitSizeError "ParseUint" s bitSize))
      else
        let bitSize := if bitSize = 0 then IntSize else bitSize
        let cutoff := (2 ^ 64 - 1) / b + 1
        let maxVal := 2 ^ bitSize - 1
        match parseLoop b base0 cutoff maxVal cs 0 false with
        | .error .ErrRange => (maxVal, some (rangeError "ParseUint" s))
        | .error _ => (0, some (syntaxError "ParseUint" s))
        | .ok (n, underscores) =>
          if underscores = true ∧ underscoreOK s.data = false then
            (0, some (syntaxError "ParseUint" s))
          else (n, none)

/-- The function `strconv.ParseInt(s, base, bitSize)`. -/
def ParseInt (s : String) (base bitSize : Nat) : Int × Option NumError :=
  if s = "" then (0, some (syntaxError "ParseInt" s))
  else
    let (neg, rest) : Bool × List Char :=
      match s.data with
      | c :: cs => if c = '+' then (false, cs) else if c = '-' then (true, cs) else (false, c :: cs)
      | [] => (false, [])
    match ParseUint (String.mk rest) base bitSize with
    | (un, err) =>
      if err.isSome = true ∧ err.map NumError.Err ≠ some .ErrRange then
        (0, err.map fun e => { e with Func := "ParseInt", Num := s })
      else
        let bitSize := if bitSize = 0 then IntSize else bitSize
        let cutoff := 2 ^ (bitSize - 1)
        if neg = false ∧ un ≥ cutoff then ((cutoff : Nat) - 1, some (rangeError "ParseInt" s))
        else if neg = true ∧ un > cutoff then (-(cutoff : Nat), some (rangeError "ParseInt" s))
        else
          let n : Int := wrapInt 64 un
          (if neg then wrapInt 64 (-n) else n, none)

/-- The character for a digit below 36 (`"0123456789abcdefghijklmnopqrstuvwxyz"`). -/
def digitChar (d : Nat) : Char :=
  if d < 10 then Char.ofNat (48 + d) else Char.ofNat (87 + d)

/-- The digit loop of `strconv.formatBits`: the digits of `u` in the given base
are put in front of `acc`, least significant digit first.  The first argument
bounds the number of iterations. -/
def formatBits : Nat → Nat → Nat → List Char → List Char
  | 0, _, u, acc => digitChar u :: acc
  | fuel + 1, base, u, acc =>
    if u ≥ base then formatBits fuel base (u / base) (digitChar (u % base) :: acc)
    else digitChar u :: acc

/-- The function `strconv.FormatUint(i, base)`, for `2 ≤ base ≤ 36`. -/
def FormatUint (i : Nat) (base : Nat) : String :=
  String.mk (formatBits i base i [])

/-- The function `strconv.FormatInt(i, base)`, for `2 ≤ base ≤ 36`. -/
def FormatInt (i : Int) (base : Nat) : String :=
  if i < 0 then String.mk ('-' :: formatBits i.natAbs base i.natAbs [])
  else String.mk (formatBits i.natAbs base i.natAbs [])

/-! ## The decoders of `decoder_types.go` -/

/-- Run `set` on the value a getter returned; a panic of the getter is the
panic of the decoder. -/
def withValue {α : Type} (r : Except Panic α) (s : State) (set : α → Outcome) : Outcome :=
  match r with
  | .error e => .panic e s
  | .ok a => set a

def invalidValueDecoder (L : Lib) : decoderFunc := fun dv _sv s =>
  dv.Set L (Zero dv.Typ) s

def unsupportedTypeDecoder : decoderFunc := fun dv _sv s =>
  .panic (.UnsupportedTypeError dv.Typ) s

def unexpectedTypeDecoder : decoderFunc := fun dv sv s =>
  .panic (.UnexpectedTypeError dv.Typ sv.Typ) s

def unconvertibleTypeDecoder : decoderFunc := fun dv sv s =>
  .panic (.UnconvertibleTypeError dv.Typ sv.Typ) s

def interfaceDecoder (L : Lib) : decoderFunc := fun dv sv s =>
  dv.Set L sv s

/-- The struct `ptrDecoder`. -/
structure ptrDecoder where
  elemDec : decoderFunc

/-- The method `(*ptrDecoder).decode`: `v` is the value `reflect.New` returns,
and it is `v` itself that is handed to the element decoder. -/
def ptrDecoder.decode (L : Lib) (d : ptrDecoder) : decoderFunc := fun dv sv s =>
  match dv.Typ.Elem with
  | .error e => .panic e s
  | .ok elem =>
    match New elem s with
    | (v, s1) =>
      match d.elemDec v sv s1 with
      | .panic e s2 => .panic e s2
      | .ok s2 => dv.Set L v s2

/-! ### Boolean decoders -/

def boolAsBoolDecoder : decoderFunc := fun dv sv s =>
  withValue (sv.Bool s) s fun b => dv.SetBool b s

def boolAsIntDecoder : decoderFunc := fun dv sv s =>
  withValue (sv.Bool s) s fun b => if b then dv.SetInt 1 s else dv.SetInt 0 s

def boolAsUintDecoder : decoderFunc := fun dv sv s =>
  withValue (sv.Bool s) s fun b => if b then dv.SetUint 1 s else dv.SetUint 0 s

def boolAsFloatDecoder (L : Lib) : decoderFunc := fun dv sv s =>
  withValue (sv.Bool s) s fun b =>
    if b then dv.SetFloat L (L.floatOfInt 1) s else dv.SetFloat L (L.floatOfInt 0) s

def boolAsStringDecoder : decoderFunc := fun dv sv s =>
  withValue (sv.Bool s) s fun b => if b then dv.SetString "1" s else dv.SetString "0" s

/-! ### Int decoders -/

def intAsBoolDecoder : decoderFunc := fun dv sv s =>
  withValue (sv.Int s) s fun i => dv.SetBool (decide (i ≠ 0)) s

def intAsIntDecoder : decoderFunc := fun dv sv s =>
  withValue (sv.Int s) s fun i => dv.SetInt i s

def intAsUintDecoder : decoderFunc := fun dv sv s =>
  withValue (sv.Int s) s fun i => dv.SetUint (i % 2 ^ 64).toNat s

def intAsFloatDecoder (L : Lib) : decoderFunc := fun dv sv s =>
  withValue (sv.Int s) s fun i => dv.SetFloat L (L.floatOfInt i) s

def intAsStringDecoder : decoderFunc := fun dv sv s =>
  withValue (sv.Int s) s fun i => dv.SetString (FormatInt i 10) s

def intAsUnsupportedTypeDecoder : decoderFunc := fun dv _sv s =>
  .panic (.UnsupportedTypeError dv.Typ) s

/-! ### Uint decoders -/

def uintAsBoolDecoder : decoderFunc := fun dv sv s =>
  withValue (sv.Uint s) s fun u => dv.SetBool (decide (u ≠ 0)) s

def uintAsIntDecoder : decoderFunc := fun dv sv s =>
  withValue (sv.Uint s) s fun u => dv.SetInt (wrapInt 64 u) s

def uintAsUintDecoder : decoderFunc := fun dv sv s =>
  withValue (sv.Uint s) s fun u => dv.SetUint u s

def uintAsFloatDecoder (L : Lib) : decoderFunc := fun dv sv s =>
  withValue (sv.Uint s) s fun u => dv.SetFloat L (L.floatOfUint u) s

def uintAsStringDecoder : decoderFunc := fun dv sv s =>
  withValue (sv.Uint s) s fun u => dv.SetString (FormatUint u 10) s

def uintAsUnsupportedTypeDecoder : decoderFunc := fun dv _sv s =>
  .panic (.UnsupportedTypeError dv.Typ) s

/-! ### Float decoders -/

def floatAsBoolDecoder (L : Lib) : decoderFunc := fun dv sv s =>
  withValue (sv.Float s) s fun f => dv.SetBool (L.floatNeZero f) s

def floatAsIntDecoder (L : Lib) : decoderFunc := fun dv sv s =>
  withValue (sv.Float s) s fun f => dv.SetInt (L.intOfFloat f) s

def floatAsUintDecoder (L : Lib) : decoderFunc := fun dv sv s =>
  withValue (sv.Float s) s fun f => dv.SetUint (L.uintOfFloat f) s

def floatAsFloatDecoder (L : Lib) : decoderFunc := fun dv sv s =>
  withValue (sv.Float s) s fun f => dv.SetFloat L f s

def floatAsStringDecoder (L : Lib) : decoderFunc := fun dv sv s =>
  withValue (sv.Float s) s fun f => dv.SetString (L.FormatFloat f) s

def floatAsUnsupportedTypeDecoder : decoderFunc := fun dv _sv s =>
  .panic (.UnsupportedTypeError dv.Typ) s

/-! ### String decoders -/

def stringAsBoolDecoder : decoderFunc := fun dv sv s =>
  match ParseBool (sv.String s) with
  | (b, none) => dv.SetBool b s
  | (_, some err) =>
    if sv.String s = "" then dv.SetBool false s
    else .panic (.InvalidTypeError dv.Typ sv.Typ err) s

def stringAsIntDecoder : decoderFunc := fun dv sv s =>
  let s := ppPrintln (dv.Interface s) s
  withValue dv.Typ.Bits s fun bits =>
    match ParseInt (sv.String s) 0 bits with
    | (i, none) => dv.SetInt i s
    | (_, some err) => .panic (.InvalidTypeError dv.Typ sv.Typ err) s

def stringAsUintDecoder : decoderFunc := fun dv sv s =>
  withValue dv.Typ.Bits s fun bits =>
    match ParseUint (sv.String s) 0 bits with
    | (i, none) => dv.SetUint i s
    | (_, some err) => .panic (.InvalidTypeError dv.Typ sv.Typ err) s

def stringAsFloatDecoder (L : Lib) : decoderFunc := fun dv sv s =>
  withValue dv.Typ.Bits s fun bits =>
    match L.ParseFloat (sv.String s) bits with
    | (f, none) => dv.SetFloat L f s
    | (_, some err) => .panic (.InvalidTypeError dv.Typ sv.Typ err) s

def stringAsStringDecoder : decoderFunc := fun dv sv s =>
  dv.SetString (sv.String s) s

def stringAsUnsupportedTypeDecoder : decoderFunc := fun dv _sv s =>
  .panic (.UnsupportedTypeError dv.Typ) s

/-! ### Resolution -/

set_option linter.unusedVariables false

mutual

/-- The function `newTypeDecoder`: constructs a `decoderFunc` for a pair of
types.  Resolution is a computation that can itself panic (through
`Type.Elem`), so the result is in `Except`. -/
def newTypeDecoder (L : Lib) (dt st : GoType) (allowAddr : Bool) : Except Panic decoderFunc :=
  match dt.Kind with
  | .Bool =>
    match st.Kind with
    | .Bool => .ok boolAsBoolDecoder
    | .Int | .Int8 | .Int16 | .Int32 | .Int64 => .ok intAsBoolDecoder
    | .Uint | .Uint8 | .Uint16 | .Uint32 | .Uint64 | .Uintptr => .ok uintAsBoolDecoder
    | .Float32 | .Float64 => .ok (floatAsBoolDecoder L)
    | .String => .ok stringAsBoolDecoder
    | _ => .ok unconvertibleTypeDecoder
  | .Int | .Int8 | .Int16 | .Int32 | .Int64 =>
    match st.Kind with
    | .Bool => .ok boolAsIntDecoder
    | .Int | .Int8 | .Int16 | .Int32 | .Int64 => .ok intAsIntDecoder
    | .Uint | .Uint8 | .Uint16 | .Uint32 | .Uint64 | .Uintptr => .ok uintAsIntDecoder
    | .Float32 | .Float64 => .ok (floatAsIntDecoder L)
    | .String => .ok stringAsIntDecoder
    | _ => .ok unconvertibleTypeDecoder
  | .Uint | .Uint8 | .Uint16 | .Uint32 | .Uint64 | .Uintptr =>
    match st.Kind with
    | .Bool => .ok boolAsUintDecoder
    | .Int | .Int8 | .Int16 | .Int32 | .Int64 => .ok intAsUintDecoder
    | .Uint | .Uint8 | .Uint16 | .Uint32 | .Uint64 | .Uintptr => .ok uintAsUintDecoder
    | .Float32 | .Float64 => .ok (floatAsUintDecoder L)
    | .String => .ok stringAsUintDecoder
    | _ => .ok unconvertibleTypeDecoder
  | .Float32 | .Float64 =>
    match st.Kind with
    | .Bool => .ok (boolAsFloatDecoder L)
    | .Int | .Int8 | .Int16 | .Int32 | .Int64 => .ok (intAsFloatDecoder L)
    | .Uint | .Uint8 | .Uint16 | .Uint32 | .Uint64 | .Uintptr => .ok (uintAsFloatDecoder L)
    | .Float32 | .Float64 => .ok (floatAsFloatDecoder L)
    | .String => .ok (stringAsFloatDecoder L)
    | _ => .ok unconvertibleTypeDecoder
  | .String =>
    match st.Kind with
    | .Bool => .ok boolAsStringDecoder
    | .Int | .Int8 | .Int16 | .Int32 | .Int64 => .ok intAsStringDecoder
    | .Uint | .Uint8 | .Uint16 | .Uint32 | .Uint64 | .Uintptr => .ok uintAsStringDecoder
    | .Float32 | .Float64 => .ok (floatAsStringDecoder L)
    | .String => .ok stringAsStringDecoder
    | _ => .ok unconvertibleTypeDecoder
  | .Interface =>
    if !L.AssignableTo st dt then .ok unexpectedTypeDecoder
    else .ok (interfaceDecoder L)
  | .Ptr => newPtrDecoder L dt st
  | _ => .ok unsupportedTypeDecoder
termination_by (sizeOf dt, 1)
decreasing_by
  exact Prod.Lex.right _ (by decide)

/-- The function `newPtrDecoder`. -/
def newPtrDecoder (L : Lib) (dt st : GoType) : Except Panic decoderFunc :=
  match h : dt.Elem with
  | .error e => .error e
  | .ok elem =>
    match typeDecoder L elem st with
    | .error e => .error e
    | .ok elemDec => .ok (ptrDecoder.decode L ⟨elemDec⟩)
termination_by (sizeOf dt, 0)
decreasing_by
  apply Prod.Lex.left
  cases dt with
  | basic name k hk => simp [GoType.Elem] at h
  | ptr name e =>
    simp only [GoType.Elem, Except.ok.injEq] at h
    subst h
    simp only [GoType.ptr.sizeOf_spec]
    omega

/-- Modelled from the spec: `typeDecoder` is called by `newPtrDecoder` and
defined outside `decoder_types.go`.  The pointer case of the resolver has to
"recursively resolve a conversion function for (element-type-of-destination,
sourceType)", and resolution is "type-only and side-effect-free", so that a
cache in front of it is not observable: `typeDecoder` is resolution by
`newTypeDecoder`. -/
def typeDecoder (L : Lib) (dt st : GoType) : Except Panic decoderFunc :=
  newTypeDecoder L dt st true
termination_by (sizeOf dt, 2)
decreasing_by
  exact Prod.Lex.right _ (by decide)

end

/-! ## Vocabulary of the specification -/

/-- The five scalar kinds of the dispatch table. -/
inductive Category
  | boolean | signed | unsigned | floating | string
  deriving DecidableEq, Repr

/-- The scalar category of a kind: the grouping of the `case` lists of
`newTypeDecoder`; `none` for every kind outside the five categories. -/
def Kind.category : Kind → Option Category
  | .Bool => some .boolean
  | .Int | .Int8 | .Int16 | .Int32 | .Int64 => some .signed
  | .Uint | .Uint8 | .Uint16 | .Uint32 | .Uint64 | .Uintptr => some .unsigned
  | .Float32 | .Float64 => some .floating
  | .String => some .string
  | _ => none

/-- The dispatch table as the specification lays it out: the conversion
`SAsDDecoder` for destination category `D` and source category `S`. -/
def scalarTable (L : Lib) : Category → Category → decoderFunc
  | .boolean, .boolean => boolAsBoolDecoder
  | .boolean, .signed => intAsBoolDecoder
  | .boolean, .unsigned => uintAsBoolDecoder
  | .boolean, .floating => floatAsBoolDecoder L
  | .boolean, .string => stringAsBoolDecoder
  | .signed, .boolean => boolAsIntDecoder
  | .signed, .signed => intAsIntDecoder
  | .signed, .unsigned => uintAsIntDecoder
  | .signed, .floating => floatAsIntDecoder L
  | .signed, .string => stringAsIntDecoder
  | .unsigned, .boolean => boolAsUintDecoder
  | .unsigned, .signed => intAsUintDecoder
  | .unsigned, .unsigned => uintAsUintDecoder
  | .unsigned, .floating => floatAsUintDecoder L
  | .unsigned, .string => stringAsUintDecoder
  | .floating, .boolean => boolAsFloatDecoder L
  | .floating, .signed => intAsFloatDecoder L
  | .floating, .unsigned => uintAsFloatDecoder L
  | .floating, .floating => floatAsFloatDecoder L
  | .floating, .string => stringAsFloatDecoder L
  | .string, .boolean => boolAsStringDecoder
  | .string, .signed => intAsStringDecoder
  | .string, .unsigned => uintAsStringDecoder
  | .string, .floating => floatAsStringDecoder L
  | .string, .string => stringAsStringDecoder

/-- The effect a decoder may have on memory: a panic leaves every allocated
cell as it was; a return happens only when the destination is a settable
location, and changes no other cell. -/
def Outcome.Framed (dv : Value) (s : State) : Outcome → Prop
  | .panic _ s' => ∀ a, a < s.next → s'.mem a = s.mem a
  | .ok s' => ∃ t a, dv = .loc t a ∧ ∀ b, b ≠ a → s'.mem b = s.mem b

/-- A decoder whose every application is framed. -/
def decoderFunc.Framed (f : decoderFunc) : Prop :=
  ∀ dv sv s, (f dv sv s).Framed dv s

/-! ## Concrete inputs -/

/-- The type `int`. -/
def intType : GoType := .basic "int" .Int (by decide)

/-- The type `uint8`. -/
def uint8Type : GoType := .basic "uint8" .Uint8 (by decide)

/-- The type `bool`. -/
def boolType : GoType := .basic "bool" .Bool (by decide)

/-- The type `string`. -/
def stringType : GoType := .basic "string" .String (by decide)

/-- The type `interface {}`. -/
def emptyInterface : GoType := .basic "interface \x7b\x7d" .Interface (by decide)

/-- A struct type. -/
def pointType : GoType := .basic "image.Point" .Struct (by decide)

/-- A library instance on which decoders can be evaluated.  A type is
assignable to itself and to `interface {}`.  The float operations read a bit
pattern as a natural number and no float literal parses; the examples do not go
through them. -/
def sampleLib : Lib where
  AssignableTo := fun src dst => decide (src = dst) || decide (dst = emptyInterface)
  ParseFloat := fun s _ => (⟨0⟩, some (syntaxError "ParseFloat" s))
  FormatFloat := fun _ => ""
  floatOfInt := fun i => ⟨i.toNat⟩
  floatOfUint := fun u => ⟨u⟩
  intOfFloat := fun f => f.bits
  uintOfFloat := fun f => f.bits
  floatNeZero := fun f => decide (f.bits ≠ 0)
  float32 := fun f => f

/-- A state with one allocated cell, at address 0, holding a nil pointer. -/
def sampleState : State := { mem := fun _ => .ptr none, next := 1, out := [] }

/-- The type `float64`. -/
def float64Type : GoType := .basic "float64" .Float64 (by decide)

/-- A type of each scalar category. -/
def Category.sampleType : Category → GoType
  | .boolean => boolType
  | .signed => intType
  | .unsigned => uint8Type
  | .floating => float64Type
  | .string => stringType

/-- A value of each scalar category. -/
def Category.sampleValue : Category → Value
  | .boolean => .rv boolType (.bool true)
  | .signed => .rv intType (.int 1)
  | .unsigned => .rv uint8Type (.uint 1)
  | .floating => .rv float64Type (.float ⟨0⟩)
  | .string => .rv stringType (.str "1")

/-- How a call ended: it returned, it panicked inside `reflect`, or it failed
with an error of the package. -/
inductive Verdict
  | returned | reflectPanic | failure
  deriving DecidableEq, Repr

/-- The verdict of an outcome. -/
def Outcome.verdict : Outcome → Verdict
  | .ok _ => .returned
  | .panic (.Reflect _) _ => .reflectPanic
  | .panic _ _ => .failure

/-- The verdict of a decoder on a destination location of category `D` and a
source value of category `S`. -/
def probe (f : decoderFunc) (D S : Category) : Verdict :=
  (f (.loc D.sampleType 0) S.sampleValue sampleState).verdict

/-- The type `int8`. -/
def int8Type : GoType := .basic "int8" .Int8 (by decide)

/-- The type `int64`. -/
def int64Type : GoType := .basic "int64" .Int64 (by decide)

/-- A state with one allocated cell, at address 0, holding the `int` 0. -/
def intState : State := { mem := fun _ => .int 0, next := 1, out := [] }

/-- The state in which a call ended. -/
def Outcome.state : Outcome → State
  | .ok s => s
  | .panic _ s => s

/-- The part of `strconv.ParseInt` that follows the reading of the sign: `s` is
the whole string, `neg` tells whether it starts with `-`, and `r` is what
`ParseUint` returned for the rest. -/
def parseIntFinish (s : String) (neg : Bool) (bitSize : Nat) (r : Nat × Option NumError) :
    Int × Option NumError :=
  match r with
  | (un, err) =>
    if err.isSome = true ∧ err.map NumError.Err ≠ some .ErrRange then
      (0, err.map fun e => { e with Func := "ParseInt", Num := s })
    else
      let bitSize := if bitSize = 0 then IntSize else bitSize
      let cutoff := 2 ^ (bitSize - 1)
      if neg = false ∧ un ≥ cutoff then ((cutoff : Nat) - 1, some (rangeError "ParseInt" s))
      else if neg = true ∧ un > cutoff then (-(cutoff : Nat), some (rangeError "ParseInt" s))
      else
        let n : Int := wrapInt 64 un
        (if neg then wrapInt 64 (-n) else n, none)

/-! ## Integer literals, as the specification reads them

The claims on string sources speak of a well-formed integer literal, with an
optional sign and a base detected from its prefix, and of the number it
denotes.  The definitions below say what that is, without reference to the
machine arithmetic of `strconv`: the syntax is that of `strconv.ParseInt` with
base 0 (prefixes `0x`, `0o`, `0b` in either case, a leading `0` for octal,
decimal otherwise, `_` as a separator of digits), and the value is computed on
unbounded natural numbers. -/

/-- The value of a character as a digit: `0`-`9`, then the letters of either
case from 10 on. -/
def literalDigit (c : Char) : Option Nat :=
  if 48 ≤ c.toNat ∧ c.toNat ≤ 57 then some (c.toNat - 48)
  else if 97 ≤ c.toNat ∧ c.toNat ≤ 122 then some (c.toNat - 97 + 10)
  else if 65 ≤ c.toNat ∧ c.toNat ≤ 90 then some (c.toNat - 65 + 10)
  else none

/-- The number that digits denote in base `b`, read from the left and added to
`acc` shifted; separators are skipped.  There is no number when a character is
not a digit of base `b`. -/
def literalDigits (b : Nat) : List Char → Nat → Option Nat
  | [], acc => some acc
  | c :: cs, acc =>
    if c = '_' then literalDigits b cs acc
    else
      match literalDigit c with
      | some d => if d < b then literalDigits b cs (acc * b + d) else none
      | none => none

/-- Separators are well placed: each `_` comes directly after a digit or after
the base prefix, and directly before a digit.  The flag tells whether the
previous character was a digit or the end of a base prefix. -/
def separatorsOK : List Char → Bool → Bool
  | [], _ => true
  | c :: cs, afterDigit =>
    if c = '_' then
      afterDigit && (match cs.head? with
        | some d => decide (d ≠ '_')
        | none => false) && separatorsOK cs false
    else separatorsOK cs true

/-- The digits of a literal in base `b`, with their separators. -/
def literalBody (b : Nat) (ds : List Char) (afterPrefix : Bool) : Option Nat :=
  if separatorsOK ds afterPrefix = true then literalDigits b ds 0 else none

/-- The number an unsigned integer literal denotes; `none` when the text is not
a well-formed literal. -/
def unsignedLiteral : List Char → Option Nat
  | [] => none
  | c :: rest =>
    if c = '0' then
      match rest with
      | p :: d :: ds =>
        if p = 'x' ∨ p = 'X' then literalBody 16 (d :: ds) true
        else if p = 'o' ∨ p = 'O' then literalBody 8 (d :: ds) true
        else if p = 'b' ∨ p = 'B' then literalBody 2 (d :: ds) true
        else literalBody 8 rest true
      | _ => literalBody 8 rest true
    else literalBody 10 (c :: rest) false

/-- The number an integer literal with an optional sign denotes. -/
def integerLiteral : List Char → Option Int
  | [] => none
  | c :: rest =>
    if c = '-' then (unsignedLiteral rest).map fun v : Nat => -(v : Int)
    else if c = '+' then (unsignedLiteral rest).map fun v : Nat => (v : Int)
    else (unsignedLiteral (c :: rest)).map fun v : Nat => (v : Int)

/-! ## Resolution lemmas -/

theorem resolve_scalar (L : Lib) (dt st : GoType) (allowAddr : Bool) (D S : Category)
    (hD : dt.Kind.category = some D) (hS : st.Kind.category = some S) :
    newTypeDecoder L dt st allowAddr = .ok (scalarTable L D S) := by
  rw [newTypeDecoder]
  generalize dt.Kind = kd at hD ⊢
  generalize st.Kind = ks at hS ⊢
  cases kd <;> simp only [Kind.category, Option.some.injEq, reduceCtorEq] at hD <;> subst hD <;>
    cases ks <;> simp only [Kind.category, Option.some.injEq, reduceCtorEq] at hS <;> subst hS <;>
    rfl

theorem resolve_unconvertible (L : Lib) (dt st : GoType) (allowAddr : Bool) (D : Category)
    (hD : dt.Kind.category = some D) (hS : st.Kind.category = none) :
    newTypeDecoder L dt st allowAddr = .ok unconvertibleTypeDecoder := by
  rw [newTypeDecoder]
  generalize dt.Kind = kd at hD ⊢
  generalize st.Kind = ks at hS ⊢
  cases kd <;> simp only [Kind.category, Option.some.injEq, reduceCtorEq] at hD <;>
    cases ks <;> simp only [Kind.category, reduceCtorEq] at hS <;> rfl

theorem resolve_interface (L : Lib) (dt st : GoType) (allowAddr : Bool)
    (hD : dt.Kind = Kind.Interface) :
    newTypeDecoder L dt st allowAddr =
      .ok (if L.AssignableTo st dt then interfaceDecoder L else unexpectedTypeDecoder) := by
  rw [newTypeDecoder, hD]
  cases L.AssignableTo st dt <;> rfl

theorem resolve_ptr (L : Lib) (name : String) (elem st : GoType) (allowAddr : Bool) :
    newTypeDecoder L (.ptr name elem) st allowAddr =
      match newTypeDecoder L elem st true with
      | .error e => .error e
      | .ok elemDec => .ok (ptrDecoder.decode L ⟨elemDec⟩) := by
  rw [newTypeDecoder]
  simp only [GoType.Kind]
  rw [newPtrDecoder]
  simp only [GoType.Elem]
  rw [typeDecoder]

theorem resolve_other (L : Lib) (dt st : GoType) (allowAddr : Bool)
    (hD : dt.Kind.category = none) (hI : dt.Kind ≠ Kind.Interface) (hP : dt.Kind ≠ Kind.Ptr) :
    newTypeDecoder L dt st allowAddr = .ok unsupportedTypeDecoder := by
  rw [newTypeDecoder]
  generalize dt.Kind = kd at hD hI hP ⊢
  cases kd <;> simp only [Kind.category, reduceCtorEq, ne_eq, not_true_eq_false] at hD hI hP <;> rfl

/-! ## Frame lemmas -/

theorem framed_panic (dv : Value) (s : State) (e : Panic) :
    (Outcome.panic e s).Framed dv s := by
  intro a _; rfl

theorem framed_store (t : GoType) (a : Nat) (s : State) (d : Data) :
    (Outcome.ok (s.store a d)).Framed (.loc t a) s := by
  refine ⟨t, a, rfl, ?_⟩
  intro b hb
  simp [State.store, hb]

theorem framed_SetBool (dv : Value) (x : Bool) (s : State) :
    (dv.SetBool x s).Framed dv s := by
  cases dv with
  | rv t d => exact framed_panic _ _ _
  | loc t a =>
    simp only [Value.SetBool]
    split <;> first | exact framed_store _ _ _ _ | exact framed_panic _ _ _

theorem framed_SetInt (dv : Value) (x : Int) (s : State) :
    (dv.SetInt x s).Framed dv s := by
  cases dv with
  | rv t d => exact framed_panic _ _ _
  | loc t a =>
    simp only [Value.SetInt]
    split <;> first | exact framed_store _ _ _ _ | exact framed_panic _ _ _

theorem framed_SetUint (dv : Value) (x : Nat) (s : State) :
    (dv.SetUint x s).Framed dv s := by
  cases dv with
  | rv t d => exact framed_panic _ _ _
  | loc t a =>
    simp only [Value.SetUint]
    split <;> first | exact framed_store _ _ _ _ | exact framed_panic _ _ _

theorem framed_SetFloat (L : Lib) (dv : Value) (x : Float64) (s : State) :
    (dv.SetFloat L x s).Framed dv s := by
  cases dv with
  | rv t d => exact framed_panic _ _ _
  | loc t a =>
    simp only [Value.SetFloat]
    split <;> first | exact framed_store _ _ _ _ | exact framed_panic _ _ _

theorem framed_SetString (dv : Value) (x : String) (s : State) :
    (dv.SetString x s).Framed dv s := by
  cases dv with
  | rv t d => exact framed_panic _ _ _
  | loc t a =>
    simp only [Value.SetString]
    split <;> first | exact framed_store _ _ _ _ | exact framed_panic _ _ _

theorem framed_Set (L : Lib) (dv x : Value) (s : State) :
    (dv.Set L x s).Framed dv s := by
  cases dv with
  | rv t d => exact framed_panic _ _ _
  | loc t a =>
    simp only [Value.Set]
    split
    · split <;> exact framed_store _ _ _ _
    · exact framed_panic _ _ _

theorem framed_withValue {α : Type} (dv : Value) (r : Except Panic α) (s : State)
    (set : α → Outcome) (h : ∀ a, (set a).Framed dv s) :
    (withValue r s set).Framed dv s := by
  cases r with
  | error e => exact framed_panic _ _ _
  | ok a => exact h a

theorem framed_ppPrintln (dv : Value) (x : Data) (s : State) (o : Outcome)
    (h : o.Framed dv (ppPrintln x s)) : o.Framed dv s := by
  cases o <;> exact h

theorem framed_stringAsBoolDecoder : stringAsBoolDecoder.Framed := by
  intro dv sv s
  simp only [stringAsBoolDecoder]
  split
  · exact framed_SetBool _ _ _
  · split
    · exact framed_SetBool _ _ _
    · exact framed_panic _ _ _

theorem framed_stringAsIntDecoder : stringAsIntDecoder.Framed := by
  intro dv sv s
  simp only [stringAsIntDecoder]
  apply framed_ppPrintln dv (dv.Interface s)
  apply framed_withValue
  intro bits
  split
  · exact framed_SetInt _ _ _
  · exact framed_panic _ _ _

theorem framed_stringAsUintDecoder : stringAsUintDecoder.Framed := by
  intro dv sv s
  simp only [stringAsUintDecoder]
  apply framed_withValue
  intro bits
  split
  · exact framed_SetUint _ _ _
  · exact framed_panic _ _ _

theorem framed_stringAsFloatDecoder (L : Lib) : (stringAsFloatDecoder L).Framed := by
  intro dv sv s
  simp only [stringAsFloatDecoder]
  apply framed_withValue
  intro bits
  split
  · exact framed_SetFloat _ _ _ _
  · exact framed_panic _ _ _

theorem framed_scalarTable (L : Lib) (D S : Category) : (scalarTable L D S).Framed := by
  cases D <;> cases S <;> simp only [scalarTable]
  all_goals first
    | exact framed_stringAsBoolDecoder
    | exact framed_stringAsIntDecoder
    | exact framed_stringAsUintDecoder
    | exact framed_stringAsFloatDecoder L
    | skip
  all_goals intro dv sv s
  all_goals first
    | exact framed_SetString _ _ _
    | exact framed_withValue _ _ _ _ (fun _ => by
        first
          | exact framed_SetBool _ _ _
          | exact framed_SetInt _ _ _
          | exact framed_SetUint _ _ _
          | exact framed_SetFloat _ _ _ _
          | exact framed_SetString _ _ _
          | (split <;> first
              | exact framed_SetInt _ _ _
              | exact framed_SetUint _ _ _
              | exact framed_SetFloat _ _ _ _
              | exact framed_SetString _ _ _))

theorem framed_unsupportedTypeDecoder : unsupportedTypeDecoder.Framed :=
  fun _ _ _ => framed_panic _ _ _

theorem framed_unexpectedTypeDecoder : unexpectedTypeDecoder.Framed :=
  fun _ _ _ => framed_panic _ _ _

theorem framed_unconvertibleTypeDecoder : unconvertibleTypeDecoder.Framed :=
  fun _ _ _ => framed_panic _ _ _

theorem framed_interfaceDecoder (L : Lib) : (interfaceDecoder L).Framed :=
  fun _ _ _ => framed_Set _ _ _ _

theorem framed_ptrDecoder (L : Lib) (elemDec : decoderFunc) (h : elemDec.Framed) :
    (ptrDecoder.decode L ⟨elemDec⟩).Framed := by
  intro dv sv s
  simp only [ptrDecoder.decode]
  split
  · exact framed_panic _ _ _
  · rename_i elem _
    have hv := h (New elem s).1 sv (New elem s).2
    simp only [New] at hv ⊢
    split
    · rename_i e s2 heq
      rw [heq] at hv
      intro a ha
      have h1 := hv a (Nat.lt_succ_of_lt ha)
      simp only [Nat.ne_of_lt ha, if_false] at h1
      exact h1
    · rename_i s2 heq
      rw [heq] at hv
      obtain ⟨t, a, hva, _⟩ := hv
      cases hva

/-- The cases of resolution for a destination type that is not a pointer. -/
theorem resolve_basic_cases (L : Lib) (name : String) (k : Kind) (hk : k ≠ Kind.Ptr)
    (st : GoType) (allowAddr : Bool) :
    (∃ D S, newTypeDecoder L (.basic name k hk) st allowAddr = .ok (scalarTable L D S)) ∨
    newTypeDecoder L (.basic name k hk) st allowAddr = .ok unconvertibleTypeDecoder ∨
    newTypeDecoder L (.basic name k hk) st allowAddr = .ok unexpectedTypeDecoder ∨
    newTypeDecoder L (.basic name k hk) st allowAddr = .ok (interfaceDecoder L) ∨
    newTypeDecoder L (.basic name k hk) st allowAddr = .ok unsupportedTypeDecoder := by
  cases hD : k.category with
  | some D =>
    cases hS : st.Kind.category with
    | some S => exact Or.inl ⟨D, S, resolve_scalar L _ st allowAddr D S hD hS⟩
    | none => exact Or.inr (Or.inl (resolve_unconvertible L _ st allowAddr D hD hS))
  | none =>
    by_cases hI : k = Kind.Interface
    · have h := resolve_interface L (.basic name k hk) st allowAddr hI
      cases hA : L.AssignableTo st (.basic name k hk)
      · rw [hA] at h; exact Or.inr (Or.inr (Or.inl h))
      · rw [hA] at h; exact Or.inr (Or.inr (Or.inr (Or.inl h)))
    · exact Or.inr (Or.inr (Or.inr (Or.inr (resolve_other L _ st allowAddr hD hI hk))))

/-- Every decoder that resolution returns is framed. -/
theorem framed_of_resolved (L : Lib) (dt st : GoType) :
    ∀ (allowAddr : Bool) (f : decoderFunc), newTypeDecoder L dt st allowAddr = .ok f →
      f.Framed := by
  induction dt with
  | basic name k hk =>
    intro allowAddr f hf
    rcases resolve_basic_cases L name k hk st allowAddr with ⟨D, S, h⟩ | h | h | h | h <;>
      rw [h] at hf <;> cases hf
    · exact framed_scalarTable L D S
    · exact framed_unconvertibleTypeDecoder
    · exact framed_unexpectedTypeDecoder
    · exact framed_interfaceDecoder L
    · exact framed_unsupportedTypeDecoder
  | ptr name elem ih =>
    intro allowAddr f hf
    rw [resolve_ptr] at hf
    cases hE : newTypeDecoder L elem st true with
    | error e => rw [hE] at hf; cases hf
    | ok elemDec =>
      rw [hE] at hf
      cases hf
      exact framed_ptrDecoder L elemDec (ih true elemDec hE)

/-- Resolution never panics. -/
theorem resolve_total (L : Lib) (dt st : GoType) :
    ∀ allowAddr : Bool, ∃ f, newTypeDecoder L dt st allowAddr = .ok f := by
  induction dt with
  | basic name k hk =>
    intro allowAddr
    rcases resolve_basic_cases L name k hk st allowAddr with ⟨D, S, h⟩ | h | h | h | h <;>
      exact ⟨_, h⟩
  | ptr name elem ih =>
    intro allowAddr
    obtain ⟨g, hg⟩ := ih true
    exact ⟨ptrDecoder.decode L ⟨g⟩, by rw [resolve_ptr, hg]⟩

/-! ## Pointer destinations -/

/-- A framed decoder panics on a destination that is not a settable location. -/
theorem framed_rv_panics (f : decoderFunc) (hf : f.Framed) (t : GoType) (d : Data)
    (sv : Value) (s : State) : ∃ e s', f (.rv t d) sv s = .panic e s' := by
  have h := hf (.rv t d) sv s
  cases hr : f (.rv t d) sv s with
  | panic e s' => exact ⟨e, s', rfl⟩
  | ok s' =>
    rw [hr] at h
    obtain ⟨t', a, hva, _⟩ := h
    cases hva

/-- Every application of a function resolved for a pointer destination panics:
the element decoder is handed the pointer that `reflect.New` returned, which is
not settable. -/
theorem ptr_apply_panics (L : Lib) (name : String) (elem st : GoType) (allowAddr : Bool)
    (f : decoderFunc) (hres : newTypeDecoder L (.ptr name elem) st allowAddr = .ok f)
    (dv sv : Value) (s : State) : ∃ e s', f dv sv s = .panic e s' := by
  rw [resolve_ptr] at hres
  cases hE : newTypeDecoder L elem st true with
  | error e => rw [hE] at hres; cases hres
  | ok elemDec =>
    rw [hE] at hres
    cases hres
    have hfr := framed_of_resolved L elem st true elemDec hE
    simp only [ptrDecoder.decode]
    split
    · exact ⟨_, _, rfl⟩
    · rename_i el _
      obtain ⟨e, s', hp⟩ := framed_rv_panics elemDec hfr (PointerTo el) (.ptr (some s.next)) sv
        (New el s).2
      simp only [New] at hp ⊢
      rw [hp]
      exact ⟨_, _, rfl⟩

/-! ## Decimal formatting and parsing -/

theorem digitChar_ne_underscore (d : Nat) (hd : d < 10) : digitChar d ≠ '_' := by
  interval_cases d <;> decide

theorem digitVal_digitChar (d : Nat) (hd : d < 10) : digitVal (digitChar d) = some d := by
  interval_cases d <;> rfl

theorem digitChar_ne_zero (d : Nat) (hd : d < 10) (h0 : 0 < d) : digitChar d ≠ '0' := by
  interval_cases d <;> decide

/-- One step of the digit loop on a decimal digit that keeps the value in
range. -/
theorem parseLoop_digit (base0 : Bool) (maxVal n d : Nat) (cs : List Char) (us : Bool)
    (hd : d < 10) (hmax : maxVal < 2 ^ 64) (hn : n * 10 + d ≤ maxVal) :
    parseLoop 10 base0 ((2 ^ 64 - 1) / 10 + 1) maxVal (digitChar d :: cs) n us =
      parseLoop 10 base0 ((2 ^ 64 - 1) / 10 + 1) maxVal cs (n * 10 + d) us := by
  have h1 : ¬ (digitChar d = '_' ∧ base0 = true) := fun h => digitChar_ne_underscore d hd h.1
  have h2 : ¬ d ≥ 10 := by omega
  have h3 : ¬ n ≥ (2 ^ 64 - 1) / 10 + 1 := by omega
  have h4 : (n * 10 + d) % 2 ^ 64 = n * 10 + d := Nat.mod_eq_of_lt (by omega)
  have h5 : ¬ (n * 10 + d < n * 10 ∨ n * 10 + d > maxVal) := by omega
  rw [parseLoop]
  simp only [h1, if_false, digitVal_digitChar d hd, h2, h3, h4, h5]

/-- Reading back the decimal digits that `formatBits` puts in front of `acc`
gives the number they were made from. -/
theorem parseLoop_formatBits (base0 : Bool) (maxVal : Nat) (hmax : maxVal < 2 ^ 64) :
    ∀ (fuel u : Nat) (acc : List Char), u ≤ fuel → u ≤ maxVal →
      parseLoop 10 base0 ((2 ^ 64 - 1) / 10 + 1) maxVal (formatBits fuel 10 u acc) 0 false =
        parseLoop 10 base0 ((2 ^ 64 - 1) / 10 + 1) maxVal acc u false := by
  intro fuel
  induction fuel with
  | zero =>
    intro u acc hu _
    have : u = 0 := by omega
    subst this
    rw [formatBits, parseLoop_digit base0 maxVal 0 0 acc false (by omega) hmax (by omega)]
  | succ fuel ih =>
    intro u acc hu hm
    rw [formatBits]
    by_cases h10 : u ≥ 10
    · simp only [h10, if_true]
      rw [ih (u / 10) _ (by omega) (by omega),
        parseLoop_digit base0 maxVal (u / 10) (u % 10) acc false (Nat.mod_lt _ (by omega)) hmax
          (by omega)]
      congr 1
      omega
    · simp only [h10, if_false]
      rw [parseLoop_digit base0 maxVal 0 u acc false (by omega) hmax (by omega)]
      congr 1
      omega

/-- The decimal rendering of a positive number does not start with `'0'`. -/
theorem formatBits_head (fuel : Nat) :
    ∀ (u : Nat) (acc : List Char), u ≤ fuel → 0 < u →
      ∃ c cs, formatBits fuel 10 u acc = c :: cs ∧ c ≠ '0' := by
  induction fuel with
  | zero => intro u acc hu h0; omega
  | succ fuel ih =>
    intro u acc hu h0
    rw [formatBits]
    by_cases h10 : u ≥ 10
    · simp only [h10, if_true]
      exact ih (u / 10) _ (by omega) (by omega)
    · simp only [h10, if_false]
      exact ⟨_, _, rfl, digitChar_ne_zero u (by omega) h0⟩

/-- Parsing the decimal rendering of `U` with base detection, at a width that
holds `U`, returns `U`. -/
theorem ParseUint_FormatUint (w U : Nat) (hw0 : 0 < w) (hw : w ≤ 64) (hU : U < 2 ^ w) :
    ParseUint (FormatUint U 10) 0 w = (U, none) := by
  have hpow : 2 ^ w ≤ 2 ^ 64 := Nat.pow_le_pow_right (by decide) hw
  have hmax : 2 ^ w - 1 < 2 ^ 64 := by omega
  have hne : FormatUint U 10 ≠ "" := by
    intro h
    have h' := congrArg String.data h
    simp only [FormatUint] at h'
    cases U with
    | zero => simp [formatBits] at h'
    | succ n =>
      obtain ⟨c, cs, hc, _⟩ := formatBits_head (n + 1) (n + 1) [] (le_refl _) (by omega)
      rw [hc] at h'
      simp at h'
  have hw64 : ¬ w > 64 := by omega
  have hwz : ¬ w = 0 := by omega
  simp only [FormatUint] at hne
  rw [ParseUint]
  simp only [hne, if_false, show ¬ (2 ≤ 0 ∧ 0 ≤ 36) by omega, if_true, hw64, hwz, FormatUint]
  by_cases h0 : U = 0
  · subst h0
    rfl
  · obtain ⟨c, cs, hc, hc0⟩ := formatBits_head U U [] (le_refl _) (by omega)
    have hdet : detectBase (formatBits U 10 U []) = (10, formatBits U 10 U []) := by
      rw [hc]
      simp only [detectBase, hc0, if_false]
    simp only [hdet]
    rw [parseLoop_formatBits _ (2 ^ w - 1) hmax U U [] (le_refl _) (by omega)]
    simp [parseLoop]

/-- The width of an unsigned kind is between 1 and 64. -/
theorem unsigned_size_bounds (k : Kind) (w : Nat) (hu : k.category = some .unsigned)
    (hw : k.size = some w) : 0 < w ∧ w ≤ 64 := by
  cases k <;> simp only [Kind.category, Option.some.injEq, reduceCtorEq] at hu <;>
    simp only [Kind.size, IntSize, Option.some.injEq] at hw <;> omega

/-- Reading an unsigned value that fits its type. -/
theorem Uint_of_unsigned (t : GoType) (w U : Nat) (s : State)
    (hu : t.Kind.category = some .unsigned) (hw : t.Kind.size = some w) (hU : U < 2 ^ w) :
    (Value.rv t (.uint U)).Uint s = .ok U := by
  simp only [Value.Uint, Value.Kind, Value.Typ, Value.load, Data.asUint, wrapUint]
  generalize t.Kind = k at hu hw
  cases k <;> simp only [Kind.category, Option.some.injEq, reduceCtorEq] at hu <;>
    simp only [Kind.size, IntSize, Option.some.injEq] at hw <;> subst hw <;>
    simp only [IntSize, Nat.mod_eq_of_lt hU]

/-- Storing an unsigned value that fits its type. -/
theorem SetUint_of_unsigned (t : GoType) (w U b : Nat) (s : State)
    (hu : t.Kind.category = some .unsigned) (hw : t.Kind.size = some w) (hU : U < 2 ^ w) :
    (Value.loc t b).SetUint U s = .ok (s.store b (.uint U)) := by
  simp only [Value.SetUint, wrapUint]
  generalize t.Kind = k at hu hw
  cases k <;> simp only [Kind.category, Option.some.injEq, reduceCtorEq] at hu <;>
    simp only [Kind.size, IntSize, Option.some.injEq] at hw <;> subst hw <;>
    simp only [IntSize, Nat.mod_eq_of_lt hU]

/-! ## The entries of the dispatch table are pairwise different functions -/

/-- On a destination that is not settable, of a struct type, every entry of the
table panics inside `reflect` or fails with InvalidType. -/
theorem scalarTable_on_struct (L : Lib) (D S : Category) :
    ((scalarTable L D S) (.rv pointType (.composite 0)) (.rv pointType (.composite 0))
      sampleState).verdict = .reflectPanic ∨
    ∃ e s, (scalarTable L D S) (.rv pointType (.composite 0)) (.rv pointType (.composite 0))
      sampleState = .panic (.InvalidTypeError pointType pointType e) s := by
  cases D <;> cases S <;> first | exact Or.inl rfl | exact Or.inr ⟨_, _, rfl⟩

theorem probe_diag (L : Lib) (D S : Category) (h : ¬ (D = .floating ∧ S = .string)) :
    probe (scalarTable L D S) D S = .returned := by
  cases D <;> cases S <;> first | rfl | exact absurd ⟨rfl, rfl⟩ h

theorem probe_stringAsFloat_dest (L : Lib) (D' S' : Category)
    (h : probe (stringAsFloatDecoder L) D' S' = .returned) : D' = .floating := by
  cases D' <;> cases S' <;> first
    | rfl
    | cases h
    | (simp only [probe, stringAsFloatDecoder, withValue, Category.sampleType,
        GoType.Bits, Value.Typ, intType, uint8Type, GoType.Kind, Kind.size, IntSize] at h
       split at h <;> cases h)

theorem probe_returned_dest (L : Lib) (D S D' S' : Category)
    (h : probe (scalarTable L D S) D' S' = .returned) : D' = D := by
  by_cases hf : D = .floating ∧ S = .string
  · obtain ⟨hD, hS⟩ := hf
    subst hD hS
    exact probe_stringAsFloat_dest L D' S' h
  · cases D <;> cases S <;> cases D' <;> cases S' <;>
      first | rfl | cases h | exact absurd ⟨rfl, rfl⟩ hf

theorem probe_returned_source (L : Lib) (D S D' S' : Category) (hS : S ≠ .string)
    (h : probe (scalarTable L D S) D' S' = .returned) : S' = S := by
  cases S
  case string => exact absurd rfl hS
  all_goals cases D <;> cases D' <;> cases S' <;> first | rfl | cases h

theorem probe_stringAsFloat_string (L : Lib) :
    probe (stringAsFloatDecoder L) .floating .string ≠ .reflectPanic := by
  intro h
  simp only [probe, stringAsFloatDecoder, withValue, Category.sampleType,
    GoType.Bits, Value.Typ, float64Type, GoType.Kind, Kind.size, Value.SetFloat] at h
  split at h <;> cases h

theorem probe_float_string (L : Lib) (S : Category) (hS : S ≠ .string) :
    probe (scalarTable L .floating S) .floating .string = .reflectPanic := by
  cases S <;> first | rfl | exact absurd rfl hS

/-- Different pairs of categories have different entries. -/
theorem scalarTable_injective (L : Lib) (D S D' S' : Category)
    (h : scalarTable L D S = scalarTable L D' S') : D = D' ∧ S = S' := by
  by_cases h1 : D = .floating ∧ S = .string
  · by_cases h2 : D' = .floating ∧ S' = .string
    · exact ⟨h1.1.trans h2.1.symm, h1.2.trans h2.2.symm⟩
    · exfalso
      obtain ⟨hD, hS⟩ := h1
      subst hD hS
      have hd := probe_diag L D' S' h2
      rw [← h] at hd
      have hD' : D' = .floating := probe_returned_dest L _ _ D' S' hd
      subst hD'
      have hS' : S' ≠ .string := fun hs => h2 ⟨rfl, hs⟩
      have hp := probe_float_string L S' hS'
      rw [← h] at hp
      exact probe_stringAsFloat_string L hp
  · have hd := probe_diag L D S h1
    by_cases h2 : D' = .floating ∧ S' = .string
    · exfalso
      obtain ⟨hD', hS'⟩ := h2
      subst hD' hS'
      rw [h] at hd
      have hD : D = .floating := probe_returned_dest L _ _ D S hd
      subst hD
      have hS : S ≠ .string := fun hs => h1 ⟨rfl, hs⟩
      have hp := probe_float_string L S hS
      rw [h] at hp
      exact probe_stringAsFloat_string L hp
    · have hd' := probe_diag L D' S' h2
      have hd2 := hd
      rw [h] at hd2
      have hD : D = D' := probe_returned_dest L D' S' D S hd2
      refine ⟨hD, ?_⟩
      by_cases hs : S = .string
      · by_cases hs' : S' = .string
        · exact hs.trans hs'.symm
        · exact probe_returned_source L D' S' D S hs' hd2
      · rw [← h] at hd'
        exact (probe_returned_source L D S D' S' hs hd').symm

theorem scalarTable_ne_sentinel (L : Lib) (D S : Category) :
    scalarTable L D S ≠ unconvertibleTypeDecoder ∧
    scalarTable L D S ≠ unsupportedTypeDecoder ∧
    scalarTable L D S ≠ unexpectedTypeDecoder := by
  have hp := scalarTable_on_struct L D S
  refine ⟨?_, ?_, ?_⟩ <;> intro h <;> rw [h] at hp <;>
    rcases hp with hp | ⟨e, s, hp⟩ <;> cases hp

/-! ## Claims -/

/-- C1: whenever applying a resolved conversion function fails, the destination
holds exactly the value it held before the call.  The failure may be any of
UnsupportedType, UnexpectedType, UnconvertibleType, InvalidType, or a panic
raised by `reflect`; the destination is any value whose location, if it has
one, is allocated.  Pointer destinations are included: the destination pointer
is not assigned. -/
theorem failure_leaves_destination (L : Lib) (dt st : GoType) (allowAddr : Bool)
    (f : decoderFunc) (dv sv : Value) (s s' : State) (e : Panic)
    (hres : newTypeDecoder L dt st allowAddr = .ok f)
    (hdv : ∀ t a, dv = .loc t a → a < s.next)
    (hfail : f dv sv s = .panic e s') :
    dv.load s' = dv.load s := by
  have h := framed_of_resolved L dt st allowAddr f hres dv sv s
  rw [hfail] at h
  cases dv with
  | rv t d => rfl
  | loc t a => exact h a (hdv t a rfl)

/-- Witness of C1: decoding `"abc"` into an `int` location fails with
InvalidType and the location keeps its content. -/
theorem failure_leaves_destination_witness :
    stringAsIntDecoder (.loc intType 0) (.rv stringType (.str "abc")) sampleState =
      .panic (.InvalidTypeError intType stringType ⟨"ParseInt", "abc", .ErrSyntax⟩)
        (ppPrintln (.iface intType (.ptr none)) sampleState) ∧
    (Value.loc intType 0).load (ppPrintln (.iface intType (.ptr none)) sampleState) =
      (Value.loc intType 0).load sampleState :=
  ⟨rfl,
   failure_leaves_destination sampleLib intType stringType false stringAsIntDecoder
    (.loc intType 0) (.rv stringType (.str "abc")) sampleState _ _
    (resolve_scalar sampleLib intType stringType false .signed .string rfl rfl)
    (by intro t a h; cases h; decide) rfl⟩

/-- C2 (code at the failing input): the function resolved for (`*int`,
`string`), applied to a nil `*int` location and the source `"42"`, does not
return.  `reflect.New` has allocated an `int`, but the element decoder
`stringAsIntDecoder` receives the pointer to it as its destination, prints it,
and panics in `Type.Bits` on the type `*int`; the destination pointer stays
nil and the new `int` stays 0. -/
theorem ptr_int_from_string_42 :
    ∃ f s', newTypeDecoder sampleLib (PointerTo intType) stringType false = .ok f ∧
      f (.loc (PointerTo intType) 0) (.rv stringType (.str "42")) sampleState =
        .panic (.Reflect "reflect: Bits of non-arithmetic Type *int") s' ∧
      s'.mem 0 = .ptr none ∧ s'.mem 1 = .int 0 ∧
      s'.out = [.iface (PointerTo intType) (.ptr (some 1))] ∧
      stringAsIntDecoder (.loc intType 1) (.rv stringType (.str "42"))
        { sampleState with mem := fun b => if b = 1 then .int 0 else sampleState.mem b } =
        .ok ((ppPrintln (.iface intType (.int 0))
          { sampleState with mem := fun b => if b = 1 then .int 0 else sampleState.mem b }).store
            1 (.int 42)) := by
  refine ⟨ptrDecoder.decode sampleLib ⟨stringAsIntDecoder⟩, _, ?_, rfl, rfl, rfl, rfl, rfl⟩
  rw [PointerTo, resolve_ptr, resolve_scalar sampleLib intType stringType true .signed .string rfl rfl]
  rfl

/-- C3 (code at the failing input): the function resolved for (`*int`,
`string`), applied to the source `"abc"`, panics in `Type.Bits` on the type
`*int`, whereas the (`int`, `string`) conversion on an `int` destination fails
with InvalidType naming `int`.  The destination pointer stays nil. -/
theorem ptr_int_from_string_abc :
    ∃ f s', newTypeDecoder sampleLib (PointerTo intType) stringType false = .ok f ∧
      f (.loc (PointerTo intType) 0) (.rv stringType (.str "abc")) sampleState =
        .panic (.Reflect "reflect: Bits of non-arithmetic Type *int") s' ∧
      s'.mem 0 = .ptr none ∧
      stringAsIntDecoder (.loc intType 0) (.rv stringType (.str "abc")) sampleState =
        .panic (.InvalidTypeError intType stringType ⟨"ParseInt", "abc", .ErrSyntax⟩)
          (ppPrintln (.iface intType (.ptr none)) sampleState) := by
  refine ⟨ptrDecoder.decode sampleLib ⟨stringAsIntDecoder⟩, _, ?_, rfl, rfl, rfl⟩
  rw [PointerTo, resolve_ptr, resolve_scalar sampleLib intType stringType true .signed .string rfl rfl]
  rfl

/-- C4: resolution is total.  For every destination type, of any pointer
nesting depth, and every source type, `newTypeDecoder` returns a conversion
function and does not panic. -/
theorem newTypeDecoder_total (L : Lib) (dt st : GoType) (allowAddr : Bool) :
    ∃ f, newTypeDecoder L dt st allowAddr = .ok f :=
  resolve_total L dt st allowAddr

/-- C5: the scalar dispatch table.  For a destination kind of category `D` and
a source kind of category `S`, both among boolean, signed integer, unsigned
integer (with `uintptr`), floating point and string, `newTypeDecoder` returns
the entry `scalarTable L D S`, the conversion named `SAsDDecoder`.  The entry
is none of the sentinels `unconvertibleTypeDecoder`, `unsupportedTypeDecoder`,
`unexpectedTypeDecoder`, and the 25 entries are pairwise different functions. -/
theorem scalar_dispatch (L : Lib) (dt st : GoType) (allowAddr : Bool) (D S : Category)
    (hD : dt.Kind.category = some D) (hS : st.Kind.category = some S) :
    newTypeDecoder L dt st allowAddr = .ok (scalarTable L D S) ∧
    scalarTable L D S ≠ unconvertibleTypeDecoder ∧
    scalarTable L D S ≠ unsupportedTypeDecoder ∧
    scalarTable L D S ≠ unexpectedTypeDecoder ∧
    ∀ D' S', scalarTable L D S = scalarTable L D' S' → D = D' ∧ S = S' :=
  ⟨resolve_scalar L dt st allowAddr D S hD hS, (scalarTable_ne_sentinel L D S).1,
    (scalarTable_ne_sentinel L D S).2.1, (scalarTable_ne_sentinel L D S).2.2,
    fun D' S' h => scalarTable_injective L D S D' S' h⟩

/-- Witness of C5: destination `int`, source `string`, resolved to
`stringAsIntDecoder`. -/
theorem scalar_dispatch_witness :
    newTypeDecoder sampleLib intType stringType false = .ok stringAsIntDecoder ∧
    stringAsIntDecoder ≠ unconvertibleTypeDecoder ∧
    stringAsIntDecoder ≠ unsupportedTypeDecoder ∧
    stringAsIntDecoder ≠ unexpectedTypeDecoder ∧
    ∀ D' S', stringAsIntDecoder = scalarTable sampleLib D' S' →
      Category.signed = D' ∧ Category.string = S' :=
  scalar_dispatch sampleLib intType stringType false .signed .string rfl rfl

/-- C6: for a destination of one of the five scalar kinds and a source type
whose kind is outside them, `newTypeDecoder` returns
`unconvertibleTypeDecoder`; applied to any destination and source it fails with
UnconvertibleType carrying the type of the destination and the type of the
source, in the state it was called in, so that nothing is written. -/
theorem unconvertible_source (L : Lib) (dt st : GoType) (allowAddr : Bool) (D : Category)
    (hD : dt.Kind.category = some D) (hS : st.Kind.category = none) :
    newTypeDecoder L dt st allowAddr = .ok unconvertibleTypeDecoder ∧
    ∀ dv sv s,
      unconvertibleTypeDecoder dv sv s = .panic (.UnconvertibleTypeError dv.Typ sv.Typ) s :=
  ⟨resolve_unconvertible L dt st allowAddr D hD hS, fun _ _ _ => rfl⟩

/-- Witness of C6: destination `int`, source a struct type. -/
theorem unconvertible_source_witness :
    newTypeDecoder sampleLib intType pointType false = .ok unconvertibleTypeDecoder ∧
    ∀ dv sv s,
      unconvertibleTypeDecoder dv sv s = .panic (.UnconvertibleTypeError dv.Typ sv.Typ) s :=
  unconvertible_source sampleLib intType pointType false .signed rfl rfl

/-- C7: for a destination type whose kind is none of the five scalar kinds,
interface or pointer, and any source type, `newTypeDecoder` returns
`unsupportedTypeDecoder`; applied to any destination and source it fails with
UnsupportedType, which carries the type of the destination and nothing of the
source. -/
theorem unsupported_destination (L : Lib) (dt st : GoType) (allowAddr : Bool)
    (hD : dt.Kind.category = none) (hI : dt.Kind ≠ Kind.Interface) (hP : dt.Kind ≠ Kind.Ptr) :
    newTypeDecoder L dt st allowAddr = .ok unsupportedTypeDecoder ∧
    ∀ dv sv s, unsupportedTypeDecoder dv sv s = .panic (.UnsupportedTypeError dv.Typ) s :=
  ⟨resolve_other L dt st allowAddr hD hI hP, fun _ _ _ => rfl⟩

/-- Witness of C7: destination a struct type, source `string`. -/
theorem unsupported_destination_witness :
    newTypeDecoder sampleLib pointType stringType false = .ok unsupportedTypeDecoder ∧
    ∀ dv sv s, unsupportedTypeDecoder dv sv s = .panic (.UnsupportedTypeError dv.Typ) s :=
  unsupported_destination sampleLib pointType stringType false rfl (by decide) (by decide)

/-- C8: for an interface destination type `dt` and a source type `st`.  If `st`
is not assignable to `dt`, the resolved function fails on every destination of
type `dt` and source of type `st` with UnexpectedType carrying `dt` and `st`,
in the state it was called in.  If `st` is assignable to `dt`, the resolved
function returns on every destination location of type `dt` and source of type
`st`, and the destination then holds the source value. -/
theorem interface_destination (L : Lib) (dt st : GoType) (allowAddr : Bool)
    (hk : dt.Kind = Kind.Interface) :
    ∃ f, newTypeDecoder L dt st allowAddr = .ok f ∧
      (L.AssignableTo st dt = false →
        ∀ dv sv s, dv.Typ = dt → sv.Typ = st →
          f dv sv s = .panic (.UnexpectedTypeError dt st) s) ∧
      (L.AssignableTo st dt = true →
        ∀ a sv s, sv.Typ = st →
          ∃ s', f (.loc dt a) sv s = .ok s' ∧
            (Value.loc dt a).load s' = sv.Interface s ∧
            ∀ b, b ≠ a → s'.mem b = s.mem b) := by
  refine ⟨_, resolve_interface L dt st allowAddr hk, ?_, ?_⟩
  · intro hA dv sv s hdv hsv
    simp only [hA, Bool.false_eq_true, if_false, unexpectedTypeDecoder, hdv, hsv]
  · intro hA a sv s hsv
    refine ⟨s.store a (sv.Interface s), ?_, ?_, ?_⟩
    · simp only [hA, if_true, interfaceDecoder, Value.Set, hsv, hk]
    · simp [Value.load, State.store]
    · intro b hb
      simp [State.store, hb]

/-- Witness of C8: destination `interface {}`, source `int`. -/
theorem interface_destination_witness :
    ∃ f, newTypeDecoder sampleLib emptyInterface intType false = .ok f ∧
      (sampleLib.AssignableTo intType emptyInterface = false →
        ∀ dv sv s, dv.Typ = emptyInterface → sv.Typ = intType →
          f dv sv s = .panic (.UnexpectedTypeError emptyInterface intType) s) ∧
      (sampleLib.AssignableTo intType emptyInterface = true →
        ∀ a sv s, sv.Typ = intType →
          ∃ s', f (.loc emptyInterface a) sv s = .ok s' ∧
            (Value.loc emptyInterface a).load s' = sv.Interface s ∧
            ∀ b, b ≠ a → s'.mem b = s.mem b) :=
  interface_destination sampleLib emptyInterface intType false rfl

/-- C9: unsigned round trip.  For an unsigned type `ut` of width `w` (8, 16, 32
or 64) and a value `U < 2 ^ w`: `uintAsStringDecoder` stores the decimal
rendering of `U` in a string location, and `stringAsUintDecoder`, applied to
that string and a destination of type `ut`, returns and stores exactly `U`. -/
theorem uint_string_round_trip (ut strT : GoType) (w U a b : Nat) (s : State)
    (hu : ut.Kind.category = some .unsigned) (hw : ut.Kind.size = some w)
    (hs : strT.Kind = Kind.String) (hU : U < 2 ^ w) :
    ∃ s1, uintAsStringDecoder (.loc strT a) (.rv ut (.uint U)) s = .ok s1 ∧
      stringAsUintDecoder (.loc ut b) (.loc strT a) s1 = .ok (s1.store b (.uint U)) := by
  obtain ⟨hw0, hw64⟩ := unsigned_size_bounds ut.Kind w hu hw
  refine ⟨s.store a (.str (FormatUint U 10)), ?_, ?_⟩
  · simp only [uintAsStringDecoder, Uint_of_unsigned ut w U s hu hw hU, withValue,
      Value.SetString, hs]
  · have hstr : (Value.loc strT a).String (s.store a (.str (FormatUint U 10))) =
        FormatUint U 10 := by
      simp [Value.String, Value.Kind, Value.Typ, hs, Value.load, State.store, Data.asString]
    simp only [stringAsUintDecoder, Value.Typ, GoType.Bits, hw, withValue, hstr,
      ParseUint_FormatUint w U hw0 hw64 hU, SetUint_of_unsigned ut w U b _ hu hw hU]

/-- Witness of C9: `uint8` and the value 255. -/
theorem uint_string_round_trip_witness :
    ∃ s1, uintAsStringDecoder (.loc stringType 0) (.rv uint8Type (.uint 255)) sampleState =
        .ok s1 ∧
      stringAsUintDecoder (.loc uint8Type 1) (.loc stringType 0) s1 =
        .ok (s1.store 1 (.uint 255)) :=
  uint_string_round_trip uint8Type stringType 8 255 0 1 sampleState rfl rfl rfl (by decide)

/-- C10: string to boolean.  For a `bool` destination location and a source
holding the string `str`: `stringAsBoolDecoder` stores `true` when `str` is one
of "1", "t", "T", "TRUE", "true", "True"; stores `false` when `str` is one of
"0", "f", "F", "FALSE", "false", "False" or the empty string; and for every
other `str` fails with InvalidType carrying the destination type, the source
type and the parse error, in the state it was called in. -/
theorem stringAsBoolDecoder_cases (dt : GoType) (a : Nat) (sv : Value) (s : State)
    (str : String) (hk : dt.Kind = Kind.Bool) (hstr : sv.String s = str) :
    (str ∈ ["1", "t", "T", "TRUE", "true", "True"] →
      stringAsBoolDecoder (.loc dt a) sv s = .ok (s.store a (.bool true))) ∧
    (str ∈ ["0", "f", "F", "FALSE", "false", "False", ""] →
      stringAsBoolDecoder (.loc dt a) sv s = .ok (s.store a (.bool false))) ∧
    (str ∉ ["1", "t", "T", "TRUE", "true", "True",
        "0", "f", "F", "FALSE", "false", "False", ""] →
      stringAsBoolDecoder (.loc dt a) sv s =
        .panic (.InvalidTypeError dt sv.Typ ⟨"ParseBool", str, .ErrSyntax⟩) s) := by
  refine ⟨?_, ?_, ?_⟩
  · intro h
    simp only [List.mem_cons, List.mem_singleton, List.not_mem_nil, or_false] at h
    rcases h with h | h | h | h | h | h <;> subst h <;>
      simp only [stringAsBoolDecoder, hstr, Value.SetBool, hk] <;> rfl
  · intro h
    simp only [List.mem_cons, List.mem_singleton, List.not_mem_nil, or_false] at h
    rcases h with h | h | h | h | h | h | h <;> subst h <;>
      simp only [stringAsBoolDecoder, hstr, Value.SetBool, hk] <;> rfl
  · intro h
    simp only [List.mem_cons, List.mem_singleton, List.not_mem_nil, or_false, not_or] at h
    obtain ⟨h1, h2, h3, h4, h5, h6, h7, h8, h9, h10, h11, h12, h13⟩ := h
    simp only [stringAsBoolDecoder, hstr, ParseBool, h1, h2, h3, h4, h5, h6, h7, h8, h9, h10,
      h11, h12, h13, or_self, if_false, Value.Typ, syntaxError]

/-- Witness of C10: the source `"TRUE"`. -/
theorem stringAsBoolDecoder_cases_witness :
    ("TRUE" ∈ ["1", "t", "T", "TRUE", "true", "True"] →
      stringAsBoolDecoder (.loc boolType 0) (.rv stringType (.str "TRUE")) sampleState =
        .ok (sampleState.store 0 (.bool true))) ∧
    ("TRUE" ∈ ["0", "f", "F", "FALSE", "false", "False", ""] →
      stringAsBoolDecoder (.loc boolType 0) (.rv stringType (.str "TRUE")) sampleState =
        .ok (sampleState.store 0 (.bool false))) ∧
    ("TRUE" ∉ ["1", "t", "T", "TRUE", "true", "True",
        "0", "f", "F", "FALSE", "false", "False", ""] →
      stringAsBoolDecoder (.loc boolType 0) (.rv stringType (.str "TRUE")) sampleState =
        .panic (.InvalidTypeError boolType (Value.rv stringType (.str "TRUE")).Typ
          ⟨"ParseBool", "TRUE", .ErrSyntax⟩) sampleState) :=
  stringAsBoolDecoder_cases boolType 0 (.rv stringType (.str "TRUE")) sampleState "TRUE" rfl rfl

/-! ## Integer conversions -/

/-- The width of a signed kind is between 1 and 64. -/
theorem signed_size_bounds (k : Kind) (w : Nat) (hs : k.category = some .signed)
    (hw : k.size = some w) : w = 8 ∨ w = 16 ∨ w = 32 ∨ w = 64 := by
  cases k <;> simp only [Kind.category, Option.some.injEq, reduceCtorEq] at hs <;>
    simp only [Kind.size, IntSize, Option.some.injEq] at hw <;> omega

/-- The width of an unsigned kind is 8, 16, 32 or 64. -/
theorem unsigned_size_cases (k : Kind) (w : Nat) (hu : k.category = some .unsigned)
    (hw : k.size = some w) : w = 8 ∨ w = 16 ∨ w = 32 ∨ w = 64 := by
  cases k <;> simp only [Kind.category, Option.some.injEq, reduceCtorEq] at hu <;>
    simp only [Kind.size, IntSize, Option.some.injEq] at hw <;> omega

/-- A value in the signed `w`-bit range is not changed by truncation. -/
theorem wrapInt_of_range (w : Nat) (v : Int) (hw : 0 < w)
    (hlo : -(2 : Int) ^ (w - 1) ≤ v) (hhi : v < (2 : Int) ^ (w - 1)) : wrapInt w v = v := by
  have hp : (2 : Int) ^ w = 2 ^ (w - 1) * 2 := by
    rw [← pow_succ]
    congr 1
    omega
  have h2 : (0 : Int) < 2 ^ (w - 1) := by positivity
  simp only [wrapInt]
  rw [Int.emod_eq_of_lt (by omega) (by omega)]
  omega

/-- Truncation lands in the signed `w`-bit range and keeps the residue. -/
theorem wrapInt_spec (w : Nat) (v : Int) (hw : 0 < w) :
    -(2 : Int) ^ (w - 1) ≤ wrapInt w v ∧ wrapInt w v < (2 : Int) ^ (w - 1) ∧
      (wrapInt w v - v) % 2 ^ w = 0 := by
  have hp : (2 : Int) ^ w = 2 ^ (w - 1) * 2 := by
    rw [← pow_succ]
    congr 1
    omega
  have h2 : (0 : Int) < 2 ^ (w - 1) := by positivity
  have hpos : (0 : Int) < 2 ^ w := by positivity
  have h0 := Int.emod_nonneg (v + 2 ^ (w - 1)) (ne_of_gt hpos)
  have h1 := Int.emod_lt_of_pos (v + 2 ^ (w - 1)) hpos
  simp only [wrapInt]
  refine ⟨by omega, by omega, ?_⟩
  have : (v + 2 ^ (w - 1)) % 2 ^ w - 2 ^ (w - 1) - v =
      -(2 ^ w * ((v + 2 ^ (w - 1)) / 2 ^ w)) := by
    have := Int.emod_add_ediv (v + 2 ^ (w - 1)) (2 ^ w)
    omega
  rw [this]
  exact Int.emod_eq_zero_of_dvd (dvd_neg.mpr (dvd_mul_right _ _))

/-- Reading a signed value that fits its type. -/
theorem Int_of_signed (t : GoType) (w : Nat) (v : Int) (s : State)
    (hs : t.Kind.category = some .signed) (hw : t.Kind.size = some w)
    (hlo : -(2 : Int) ^ (w - 1) ≤ v) (hhi : v < (2 : Int) ^ (w - 1)) :
    (Value.rv t (.int v)).Int s = .ok v := by
  simp only [Value.Int, Value.Kind, Value.Typ, Value.load, Data.asInt]
  generalize t.Kind = k at hs hw
  cases k <;> simp only [Kind.category, Option.some.injEq, reduceCtorEq] at hs <;>
    simp only [Kind.size, IntSize, Option.some.injEq] at hw <;> subst hw <;>
    simp only [IntSize, wrapInt_of_range _ v (by decide) hlo hhi]

/-- Storing into a signed location truncates to its width. -/
theorem SetInt_of_signed (t : GoType) (w : Nat) (x : Int) (b : Nat) (s : State)
    (hs : t.Kind.category = some .signed) (hw : t.Kind.size = some w) :
    (Value.loc t b).SetInt x s = .ok (s.store b (.int (wrapInt w x))) := by
  simp only [Value.SetInt]
  generalize t.Kind = k at hs hw
  cases k <;> simp only [Kind.category, Option.some.injEq, reduceCtorEq] at hs <;>
    simp only [Kind.size, IntSize, Option.some.injEq] at hw <;> subst hw <;> rfl

/-- Storing into an unsigned location truncates to its width. -/
theorem SetUint_of_unsigned_wrap (t : GoType) (w : Nat) (x : Nat) (b : Nat) (s : State)
    (hu : t.Kind.category = some .unsigned) (hw : t.Kind.size = some w) :
    (Value.loc t b).SetUint x s = .ok (s.store b (.uint (x % 2 ^ w))) := by
  simp only [Value.SetUint, wrapUint]
  generalize t.Kind = k at hu hw
  cases k <;> simp only [Kind.category, Option.some.injEq, reduceCtorEq] at hu <;>
    simp only [Kind.size, IntSize, Option.some.injEq] at hw <;> subst hw <;> rfl

/-- The `uint64` conversion of a signed value, truncated to `w ≤ 64` bits, is
the residue modulo `2 ^ w`. -/
theorem uint64_mod (w : Nat) (v : Int) (hw : w ≤ 64) :
    (v % 2 ^ 64).toNat % 2 ^ w = (v % 2 ^ w).toNat := by
  have h64 : (0 : Int) < 2 ^ 64 := by positivity
  have hwp : (0 : Int) < 2 ^ w := by positivity
  have hdvd : ((2 : Int) ^ w) ∣ 2 ^ 64 := pow_dvd_pow 2 hw
  have h0 := Int.emod_nonneg v (ne_of_gt h64)
  have h1 := Int.emod_nonneg v (ne_of_gt hwp)
  apply Int.ofNat.inj
  simp only [Int.ofNat_eq_coe]
  rw [Int.toNat_of_nonneg h1, Int.natCast_mod, Int.toNat_of_nonneg h0]
  push_cast
  exact Int.emod_emod_of_dvd v hdvd

/-! ## Signed decimal round trip -/

/-- The decimal rendering starts with a digit. -/
theorem formatBits_head_digit (fuel : Nat) :
    ∀ (u : Nat) (acc : List Char), u ≤ fuel →
      ∃ d cs, d < 10 ∧ formatBits fuel 10 u acc = digitChar d :: cs := by
  induction fuel with
  | zero =>
    intro u acc hu
    exact ⟨0, acc, by decide, by rw [formatBits]; congr 2; omega⟩
  | succ fuel ih =>
    intro u acc hu
    rw [formatBits]
    by_cases h10 : u ≥ 10
    · simp only [h10, if_true]
      exact ih (u / 10) _ (by omega)
    · simp only [h10, if_false]
      exact ⟨u, acc, by omega, rfl⟩

theorem digitChar_ne_sign (d : Nat) (hd : d < 10) : digitChar d ≠ '+' ∧ digitChar d ≠ '-' := by
  interval_cases d <;> decide

/-- The function `ParseInt` on a string that starts with `-`. -/
theorem ParseInt_minus (cs : List Char) (base w : Nat) :
    ParseInt (String.mk ('-' :: cs)) base w =
      parseIntFinish (String.mk ('-' :: cs)) true w (ParseUint (String.mk cs) base w) := by
  have hne : (String.mk ('-' :: cs) : String) ≠ "" := by
    intro h
    have h' := congrArg String.data h
    simp at h'
  rw [ParseInt, if_neg hne]
  rfl

/-- The function `ParseInt` on a string that starts with `+`. -/
theorem ParseInt_plus (cs : List Char) (base w : Nat) :
    ParseInt (String.mk ('+' :: cs)) base w =
      parseIntFinish (String.mk ('+' :: cs)) false w (ParseUint (String.mk cs) base w) := by
  have hne : (String.mk ('+' :: cs) : String) ≠ "" := by
    intro h
    have h' := congrArg String.data h
    simp at h'
  rw [ParseInt, if_neg hne]
  rfl

/-- The function `ParseInt` on a string that starts with no sign. -/
theorem ParseInt_unsigned (c : Char) (cs : List Char) (base w : Nat)
    (hp : c ≠ '+') (hm : c ≠ '-') :
    ParseInt (String.mk (c :: cs)) base w =
      parseIntFinish (String.mk (c :: cs)) false w (ParseUint (String.mk (c :: cs)) base w) := by
  have hne : (String.mk (c :: cs) : String) ≠ "" := by
    intro h
    have h' := congrArg String.data h
    simp at h'
  rw [ParseInt, if_neg hne]
  simp only [hp, hm, if_false, parseIntFinish]

theorem wrapInt64_natAbs (n : Int) (h0 : 0 ≤ n) (h1 : n < 2 ^ 63) :
    wrapInt 64 (n.natAbs : Int) = n := by
  simp only [wrapInt, show 64 - 1 = 63 from rfl]
  omega

theorem wrapInt64_neg_natAbs (n : Int) (h0 : n < 0) (h1 : -(2 : Int) ^ 63 ≤ n) :
    wrapInt 64 (-(wrapInt 64 (n.natAbs : Int))) = n := by
  simp only [wrapInt, show 64 - 1 = 63 from rfl]
  omega

/-- Parsing the decimal rendering of `n` with base detection, at a width that
holds `n`, returns `n`. -/
theorem ParseInt_FormatInt (w : Nat) (n : Int) (hw2 : 2 ≤ w) (hw : w ≤ 64)
    (hlo : -(2 : Int) ^ (w - 1) ≤ n) (hhi : n < (2 : Int) ^ (w - 1)) :
    ParseInt (FormatInt n 10) 0 w = (n, none) := by
  have hp : (2 : Nat) ^ w = 2 ^ (w - 1) * 2 := by
    rw [← pow_succ]
    congr 1
    omega
  have hp63 : (2 : Int) ^ (w - 1) ≤ 2 ^ 63 :=
    pow_le_pow_right₀ (by decide) (by omega)
  have hpos : 0 < (2 : Nat) ^ (w - 1) := by positivity
  have hcast : (((2 : Nat) ^ (w - 1) : Nat) : Int) = (2 : Int) ^ (w - 1) := by
    push_cast
    rfl
  have habs : n.natAbs ≤ 2 ^ (w - 1) := by omega
  have hU : n.natAbs < 2 ^ w := by omega
  have hpu := ParseUint_FormatUint w n.natAbs (by omega) hw hU
  simp only [FormatUint] at hpu
  obtain ⟨d, cs, hd, hcs⟩ := formatBits_head_digit n.natAbs n.natAbs [] (le_refl _)
  have hwz : ¬ w = 0 := by omega
  by_cases hneg : n < 0
  · have hcut : ¬ n.natAbs > 2 ^ (w - 1) := by omega
    simp only [FormatInt, hneg, if_true]
    rw [ParseInt_minus, hpu]
    simp only [parseIntFinish, Option.isSome_none, Bool.false_eq_true, false_and, if_false,
      hwz, Bool.true_eq_false, true_and, hcut, if_true]
    rw [wrapInt64_neg_natAbs n hneg (by omega)]
  · have hcut : ¬ n.natAbs ≥ 2 ^ (w - 1) := by omega
    have hs := digitChar_ne_sign d hd
    simp only [FormatInt, hneg, if_false]
    rw [hcs, ParseInt_unsigned _ _ _ _ hs.1 hs.2, ← hcs, hpu]
    simp only [parseIntFinish, Option.isSome_none, Bool.false_eq_true, false_and, if_false,
      hwz, true_and, hcut]
    rw [wrapInt64_natAbs n (by omega) (by omega)]

/-! ## The parsers of `strconv` read integer literals -/

theorem lor32_eq (n : Nat) : n ||| 32 = if n % 64 < 32 then n + 32 else n := by
  have hr : n % 64 < 2 ^ 6 := Nat.mod_lt _ (by decide)
  have hx : (n % 64) ||| 32 < 2 ^ 6 := Nat.or_lt_two_pow hr (by decide)
  have h1 : n = 2 ^ 6 * (n / 64) + n % 64 := by omega
  have h2 := Nat.mul_add_lt_is_or hr (n / 64)
  have h3 := Nat.mul_add_lt_is_or hx (n / 64)
  have hsmall : ∀ r < 64, r ||| 32 = if r < 32 then r + 32 else r := by decide
  have h4 : n ||| 32 = 2 ^ 6 * (n / 64) + (n % 64 ||| 32) := by
    calc n ||| 32 = (2 ^ 6 * (n / 64) + n % 64) ||| 32 := by rw [← h1]
      _ = (2 ^ 6 * (n / 64) ||| n % 64) ||| 32 := by rw [h2]
      _ = 2 ^ 6 * (n / 64) ||| (n % 64 ||| 32) := by rw [Nat.lor_assoc]
      _ = 2 ^ 6 * (n / 64) + (n % 64 ||| 32) := by rw [← h3]
  rw [h4, hsmall _ (by omega)]
  split <;> omega

/-- The digit value computed by `ParseUint` is the digit value of the
literal. -/
theorem digitVal_eq (c : Char) : digitVal c = literalDigit c := by
  simp only [digitVal, literalDigit, lower, lor32_eq]
  split_ifs <;> first | rfl | omega

theorem lower_eq_iff (c : Char) (k : Nat) (hk : 97 ≤ k) (hk' : k ≤ 122) :
    lower c = k ↔ c.toNat = k ∨ c.toNat = k - 32 := by
  simp only [lower, lor32_eq]
  split_ifs <;> omega

theorem char_eq_iff_toNat (c d : Char) : c = d ↔ c.toNat = d.toNat := by
  constructor
  · intro h; rw [h]
  · intro h
    exact Char.ext (UInt32.ext h)

theorem literalDigits_mono (b : Nat) (hb : 0 < b) :
    ∀ (cs : List Char) (acc v : Nat), literalDigits b cs acc = some v → acc ≤ v := by
  intro cs
  induction cs with
  | nil =>
    intro acc v h
    simp only [literalDigits, Option.some.injEq] at h
    omega
  | cons c cs ih =>
    intro acc v h
    rw [literalDigits] at h
    split_ifs at h with hc
    · exact ih acc v h
    · cases hd : literalDigit c with
      | none => simp only [hd] at h; cases h
      | some d =>
        simp only [hd] at h
        split_ifs at h with hlt
        have := ih _ v h
        have : acc ≤ acc * b := Nat.le_mul_of_pos_right acc hb
        omega

/-- The digit loop of `ParseUint` accepts digits that denote a number within
the bound, and returns that number. -/
theorem parseLoop_of_literalDigits (b maxVal : Nat)
    (hb : b = 2 ∨ b = 8 ∨ b = 10 ∨ b = 16) (hmax : maxVal < 2 ^ 64) :
    ∀ (cs : List Char) (n v : Nat) (us : Bool),
      literalDigits b cs n = some v → v ≤ maxVal →
      parseLoop b true ((2 ^ 64 - 1) / b + 1) maxVal cs n us =
        .ok (v, us || cs.contains '_') := by
  intro cs
  induction cs with
  | nil =>
    intro n v us h _
    simp only [literalDigits, Option.some.injEq] at h
    simp [parseLoop, h]
  | cons c cs ih =>
    intro n v us h hv
    rw [literalDigits] at h
    rw [parseLoop]
    by_cases hc : c = '_'
    · simp only [hc, if_true] at h
      simp only [hc, and_self, if_true, ih n v true h hv]
      simp
    · simp only [hc, if_false] at h
      simp only [hc, false_and, if_false, digitVal_eq]
      cases hd : literalDigit c with
      | none => simp only [hd] at h; cases h
      | some d =>
        simp only [hd] at h ⊢
        split_ifs at h with hlt
        have hmono := literalDigits_mono b (by omega) cs _ v h
        have h1 : ¬ d ≥ b := by omega
        have h2 : ¬ n ≥ (2 ^ 64 - 1) / b + 1 := by
          rcases hb with rfl | rfl | rfl | rfl <;> omega
        have h3 : (n * b + d) % 2 ^ 64 = n * b + d := Nat.mod_eq_of_lt (by omega)
        have h4 : ¬ (n * b + d < n * b ∨ n * b + d > maxVal) := by omega
        simp only [h1, h2, h3, h4, if_false, ih _ v us h hv]
        have hne : ¬ ('_' = c) := fun h => hc h.symm
        simp [List.contains_cons, hne]

/-- What the digit loop of `ParseUint` returns is the number the digits denote,
within the bound, and the flag tells whether a separator occurred. -/
theorem literalDigits_of_parseLoop (b maxVal : Nat)
    (hb : b = 2 ∨ b = 8 ∨ b = 10 ∨ b = 16) :
    ∀ (cs : List Char) (n v : Nat) (us us' : Bool),
      parseLoop b true ((2 ^ 64 - 1) / b + 1) maxVal cs n us = .ok (v, us') →
      n ≤ maxVal →
      literalDigits b cs n = some v ∧ v ≤ maxVal ∧ us' = (us || cs.contains '_') := by
  intro cs
  induction cs with
  | nil =>
    intro n v us us' h hn
    simp only [parseLoop, Except.ok.injEq, Prod.mk.injEq] at h
    obtain ⟨h1, h2⟩ := h
    subst h1 h2
    simp [literalDigits, hn]
  | cons c cs ih =>
    intro n v us us' h hn
    rw [parseLoop] at h
    rw [literalDigits]
    by_cases hc : c = '_'
    · simp only [hc, and_self, if_true] at h
      obtain ⟨h1, h2, h3⟩ := ih n v true us' h hn
      simp only [hc, if_true]
      refine ⟨h1, h2, ?_⟩
      simp [h3]
    · simp only [hc, false_and, if_false, digitVal_eq] at h
      simp only [hc, if_false]
      cases hd : literalDigit c with
      | none => simp only [hd] at h; cases h
      | some d =>
        simp only [hd] at h ⊢
        split_ifs at h with h1 h2 h3
        have hlt : d < b := by omega
        have hn1 : (n * b + d) % 2 ^ 64 = n * b + d := by
          rcases hb with rfl | rfl | rfl | rfl <;> omega
        rw [hn1] at h h3
        obtain ⟨h4, h5, h6⟩ := ih _ v us us' h (by omega)
        simp only [hlt, if_true]
        refine ⟨h4, h5, ?_⟩
        have hne : ¬ ('_' = c) := fun h => hc h.symm
        simp [h6, List.contains_cons, hne]

/-- A character that `underscoreOK` counts as a digit. -/
theorem separator_not_digit (hex : Bool) :
    ¬ ((48 ≤ '_'.toNat ∧ '_'.toNat ≤ 57) ∨ (hex = true ∧ 97 ≤ lower '_' ∧ lower '_' ≤ 102)) := by
  have h1 : '_'.toNat = 95 := rfl
  have h2 : lower '_' = 127 := rfl
  rw [h1, h2]
  omega

/-- On digits and separators, `underscoreOK` decides that the separators are
well placed. -/
theorem underscoreLoop_eq (hex : Bool) :
    ∀ cs : List Char,
      (∀ c ∈ cs, c = '_' ∨ (48 ≤ c.toNat ∧ c.toNat ≤ 57) ∨
        (hex = true ∧ 97 ≤ lower c ∧ lower c ≤ 102)) →
      underscoreLoop hex cs '0' = separatorsOK cs true ∧
      underscoreLoop hex cs '^' = separatorsOK cs false ∧
      underscoreLoop hex cs '_' =
        ((match cs.head? with
          | some d => decide (d ≠ '_')
          | none => false) && separatorsOK cs false) := by
  intro cs
  induction cs with
  | nil =>
    intro _
    refine ⟨?_, ?_, ?_⟩ <;> simp [underscoreLoop, separatorsOK]
  | cons c cs ih =>
    intro hv
    obtain ⟨ih1, ih2, ih3⟩ := ih (fun d hd => hv d (List.mem_cons_of_mem _ hd))
    by_cases hc : c = '_'
    · subst hc
      have hnd := separator_not_digit hex
      refine ⟨?_, ?_, ?_⟩
      · rw [underscoreLoop, separatorsOK]
        simp only [hnd, if_false, if_true, ne_eq, not_true_eq_false, ih3, Bool.true_and]
      · rw [underscoreLoop, separatorsOK]
        simp only [hnd, if_false, if_true, ne_eq, show ¬ ('^' = '0') by decide,
          not_false_eq_true, Bool.false_and]
      · rw [underscoreLoop]
        simp only [hnd, if_false, if_true, ne_eq, show ¬ ('_' = '0') by decide,
          not_false_eq_true, List.head?_cons, not_true_eq_false, decide_False, Bool.false_and]
    · have hdig : (48 ≤ c.toNat ∧ c.toNat ≤ 57) ∨
          (hex = true ∧ 97 ≤ lower c ∧ lower c ≤ 102) := by
        rcases hv c (List.mem_cons_self _ _) with h | h
        · exact absurd h hc
        · exact h
      refine ⟨?_, ?_, ?_⟩
      · rw [underscoreLoop, separatorsOK]
        simp only [hdig, if_true, hc, if_false, ih1]
      · rw [underscoreLoop, separatorsOK]
        simp only [hdig, if_true, hc, if_false, ih1]
      · rw [underscoreLoop, separatorsOK]
        simp only [hdig, if_true, hc, if_false, ih1, ne_eq, not_false_eq_true, decide_True,
          List.head?_cons, Bool.true_and]

/-- The characters of digits in a base up to 10, or up to 16 when letters
count, are digits for `underscoreOK`. -/
theorem valid_of_literalDigits (b : Nat) (hex : Bool)
    (hb : b ≤ 10 ∨ (b ≤ 16 ∧ hex = true)) :
    ∀ (cs : List Char) (n v : Nat), literalDigits b cs n = some v →
      ∀ c ∈ cs, c = '_' ∨ (48 ≤ c.toNat ∧ c.toNat ≤ 57) ∨
        (hex = true ∧ 97 ≤ lower c ∧ lower c ≤ 102) := by
  intro cs
  induction cs with
  | nil => intro n v _ c hc; cases hc
  | cons c cs ih =>
    intro n v h x hx
    rw [literalDigits] at h
    by_cases hc : c = '_'
    · simp only [hc, if_true] at h
      rcases List.mem_cons.mp hx with hx | hx
      · exact Or.inl (hx.trans hc)
      · exact ih n v h x hx
    · simp only [hc, if_false] at h
      cases hd : literalDigit c with
      | none => simp only [hd] at h; cases h
      | some d =>
        simp only [hd] at h
        split_ifs at h with hlt
        rcases List.mem_cons.mp hx with hx | hx
        · subst hx
          right
          simp only [literalDigit] at hd
          simp only [lower, lor32_eq]
          split_ifs at hd with h1 h2 h3 <;>
            simp only [Option.some.injEq] at hd <;>
            rcases hb with hb | ⟨hb, hh⟩ <;> first
              | (left; omega)
              | (right; refine ⟨hh, ?_⟩; split_ifs <;> omega)
        · exact ih _ v h x hx

theorem separatorsOK_of_no_separator :
    ∀ (cs : List Char) (ad : Bool), cs.contains '_' = false → separatorsOK cs ad = true := by
  intro cs
  induction cs with
  | nil => intro ad _; rfl
  | cons c cs ih =>
    intro ad h
    simp only [List.contains_cons, Bool.or_eq_false_iff, beq_eq_false_iff_ne, ne_eq] at h
    rw [separatorsOK]
    have hc : ¬ c = '_' := fun hh => h.1 hh.symm
    simp only [hc, if_false]
    exact ih true h.2

theorem lower_b (p : Char) : lower p = 98 ↔ p = 'b' ∨ p = 'B' := by
  rw [lower_eq_iff p 98 (by decide) (by decide), char_eq_iff_toNat, char_eq_iff_toNat]
  rfl

theorem lower_o (p : Char) : lower p = 111 ↔ p = 'o' ∨ p = 'O' := by
  rw [lower_eq_iff p 111 (by decide) (by decide), char_eq_iff_toNat, char_eq_iff_toNat]
  rfl

theorem lower_x (p : Char) : lower p = 120 ↔ p = 'x' ∨ p = 'X' := by
  rw [lower_eq_iff p 120 (by decide) (by decide), char_eq_iff_toNat, char_eq_iff_toNat]
  rfl

theorem detectBase_base (cs : List Char) :
    (detectBase cs).1 = 2 ∨ (detectBase cs).1 = 8 ∨ (detectBase cs).1 = 10 ∨
      (detectBase cs).1 = 16 := by
  cases cs with
  | nil => simp [detectBase]
  | cons c rest =>
    simp only [detectBase]
    split_ifs
    · split
      · split_ifs <;> simp
      · simp
    · simp

/-- The base and digits that `ParseUint` selects are those of the literal. -/
theorem unsignedLiteral_eq (c : Char) (rest : List Char) :
    unsignedLiteral (c :: rest) =
      literalBody (detectBase (c :: rest)).1 (detectBase (c :: rest)).2 (decide (c = '0')) := by
  simp only [unsignedLiteral, detectBase]
  by_cases hc : c = '0'
  · simp only [hc, if_true, decide_True]
    cases rest with
    | nil => rfl
    | cons c1 r1 =>
      cases r1 with
      | nil => rfl
      | cons c2 tl =>
        simp only [lower_b, lower_o, lower_x]
        by_cases hx : c1 = 'x' ∨ c1 = 'X'
        · have hb : ¬ (c1 = 'b' ∨ c1 = 'B') := by
            rcases hx with h | h <;> subst h <;> decide
          have ho : ¬ (c1 = 'o' ∨ c1 = 'O') := by
            rcases hx with h | h <;> subst h <;> decide
          simp only [hx, hb, ho, if_true, if_false]
        · by_cases ho : c1 = 'o' ∨ c1 = 'O'
          · have hb : ¬ (c1 = 'b' ∨ c1 = 'B') := by
              rcases ho with h | h <;> subst h <;> decide
            simp only [hx, hb, ho, if_true, if_false]
          · by_cases hb : c1 = 'b' ∨ c1 = 'B'
            · simp only [hx, hb, ho, if_true, if_false]
            · simp only [hx, hb, ho, if_false]
  · simp only [hc, if_false, decide_False]

theorem underscoreLoop_zero (rest : List Char) (saw : Char) :
    underscoreLoop false ('0' :: rest) saw = underscoreLoop false rest '0' := by
  rw [underscoreLoop]
  have h : (48 ≤ '0'.toNat ∧ '0'.toNat ≤ 57) := by decide
  rw [if_pos (Or.inl h)]

theorem not_marker_of_valid (c : Char)
    (h : c = '_' ∨ (48 ≤ c.toNat ∧ c.toNat ≤ 57) ∨
      (false = true ∧ 97 ≤ lower c ∧ lower c ≤ 102)) :
    ¬ (lower c = 98 ∨ lower c = 111 ∨ lower c = 120) ∧ c ≠ '-' ∧ c ≠ '+' := by
  rcases h with h | h | h
  · subst h
    refine ⟨?_, by decide, by decide⟩
    have h2 : lower '_' = 127 := rfl
    rw [h2]
    omega
  · refine ⟨?_, ?_, ?_⟩
    · simp only [lower, lor32_eq]
      split_ifs <;> omega
    · intro hc
      rw [hc] at h
      exact absurd h (by decide)
    · intro hc
      rw [hc] at h
      exact absurd h (by decide)
  · exact absurd h.1 (by decide)

/-- On a literal whose digits are digits of the detected base, `underscoreOK`
decides that the separators are well placed. -/
theorem underscoreOK_eq (c : Char) (rest : List Char) (v : Nat)
    (h : literalDigits (detectBase (c :: rest)).1 (detectBase (c :: rest)).2 0 = some v) :
    underscoreOK (c :: rest) =
      separatorsOK (detectBase (c :: rest)).2 (decide (c = '0')) := by
  by_cases hc : c = '0'
  · subst hc
    have hsign : ¬ ('0' = '-' ∨ '0' = '+') := by decide
    simp only [decide_True]
    cases rest with
    | nil => rfl
    | cons c1 r1 =>
      cases r1 with
      | nil =>
        have hd : detectBase ['0', c1] = (8, [c1]) := rfl
        rw [hd] at h ⊢
        have hval := valid_of_literalDigits 8 false (Or.inl (by decide)) _ _ _ h
        have hm := (not_marker_of_valid c1 (hval c1 (List.mem_cons_self _ _))).1
        simp only [underscoreOK, hsign, if_false, hm, and_false]
        rw [underscoreLoop_zero]
        exact (underscoreLoop_eq false [c1] hval).1
      | cons c2 tl =>
        simp only [underscoreOK, hsign, if_false, true_and]
        simp only [detectBase, if_true] at h ⊢
        by_cases hb : lower c1 = 98
        · simp only [hb, if_true, true_or] at h ⊢
          have hval := valid_of_literalDigits 2 false (Or.inl (by decide)) _ _ _ h
          simp only [show ¬ (98 = 120) by decide, decide_False]
          exact (underscoreLoop_eq false _ hval).1
        · by_cases ho : lower c1 = 111
          · simp only [hb, ho, if_true, if_false, true_or, or_true] at h ⊢
            have hval := valid_of_literalDigits 8 false (Or.inl (by decide)) _ _ _ h
            simp only [show ¬ (111 = 120) by decide, decide_False]
            exact (underscoreLoop_eq false _ hval).1
          · by_cases hx : lower c1 = 120
            · simp only [hb, ho, hx, if_true, if_false, or_true] at h ⊢
              have hval := valid_of_literalDigits 16 true (Or.inr ⟨by decide, rfl⟩) _ _ _ h
              simp only [decide_True]
              exact (underscoreLoop_eq true _ hval).1
            · simp only [hb, ho, hx, if_false, or_self] at h ⊢
              have hval := valid_of_literalDigits 8 false (Or.inl (by decide)) _ _ _ h
              rw [underscoreLoop_zero]
              exact (underscoreLoop_eq false _ hval).1
  · have hd : detectBase (c :: rest) = (10, c :: rest) := by
      simp only [detectBase, hc, if_false]
    rw [hd] at h ⊢
    have hval := valid_of_literalDigits 10 false (Or.inl (by decide)) _ _ _ h
    have hm := not_marker_of_valid c (hval c (List.mem_cons_self _ _))
    simp only [hc, decide_False]
    have hsign : ¬ (c = '-' ∨ c = '+') := fun hh => hh.elim hm.2.1 hm.2.2
    cases rest with
    | nil =>
      simp only [underscoreOK, hsign, if_false]
      exact (underscoreLoop_eq false _ hval).2.1
    | cons c1 r1 =>
      simp only [underscoreOK, hsign, if_false, hc, false_and]
      exact (underscoreLoop_eq false _ hval).2.1

/-- The function `ParseUint` with base 0 on a string that is not empty. -/
theorem ParseUint_base0 (c : Char) (rest : List Char) (w : Nat) (hw0 : 0 < w) (hw : w ≤ 64) :
    ParseUint (String.mk (c :: rest)) 0 w =
      match parseLoop (detectBase (c :: rest)).1 true
          ((2 ^ 64 - 1) / (detectBase (c :: rest)).1 + 1) (2 ^ w - 1)
          (detectBase (c :: rest)).2 0 false with
      | .error .ErrRange => (2 ^ w - 1, some (rangeError "ParseUint" (String.mk (c :: rest))))
      | .error _ => (0, some (syntaxError "ParseUint" (String.mk (c :: rest))))
      | .ok (n, us) =>
        if us = true ∧ underscoreOK (c :: rest) = false then
          (0, some (syntaxError "ParseUint" (String.mk (c :: rest))))
        else (n, none) := by
  have hne : (String.mk (c :: rest) : String) ≠ "" := by
    intro h
    have h' := congrArg String.data h
    simp at h'
  have hw64 : ¬ w > 64 := by omega
  have hwz : ¬ w = 0 := by omega
  rw [ParseUint]
  simp only [hne, if_false, show ¬ (2 ≤ 0 ∧ 0 ≤ 36) by omega, if_true, hw64, hwz, decide_True]

/-- The function `ParseUint` with base 0 returns `v` without an error exactly
when the text is an unsigned literal that denotes `v` and `v` fits `w` bits. -/
theorem ParseUint_iff (c : Char) (rest : List Char) (w v : Nat) (hw0 : 0 < w) (hw : w ≤ 64) :
    ParseUint (String.mk (c :: rest)) 0 w = (v, none) ↔
      unsignedLiteral (c :: rest) = some v ∧ v ≤ 2 ^ w - 1 := by
  have hpow : 2 ^ w ≤ 2 ^ 64 := Nat.pow_le_pow_right (by decide) hw
  have hmax : 2 ^ w - 1 < 2 ^ 64 := by omega
  have hb := detectBase_base (c :: rest)
  rw [ParseUint_base0 c rest w hw0 hw, unsignedLiteral_eq]
  constructor
  · intro h
    cases hloop : parseLoop (detectBase (c :: rest)).1 true
        ((2 ^ 64 - 1) / (detectBase (c :: rest)).1 + 1) (2 ^ w - 1)
        (detectBase (c :: rest)).2 0 false with
    | error e =>
      rw [hloop] at h
      cases e <;> simp at h
    | ok p =>
      obtain ⟨n, us⟩ := p
      rw [hloop] at h
      simp only at h
      split_ifs at h with hcond
      · simp at h
      · simp only [Prod.mk.injEq, and_true] at h
        subst h
        obtain ⟨h1, h2, h3⟩ := literalDigits_of_parseLoop _ (2 ^ w - 1) hb _ _ _ _ _ hloop
          (Nat.zero_le _)
        refine ⟨?_, h2⟩
        have hsep : separatorsOK (detectBase (c :: rest)).2 (decide (c = '0')) = true := by
          cases hus : us with
          | true =>
            rw [← underscoreOK_eq c rest n h1]
            cases hu : underscoreOK (c :: rest) with
            | true => rfl
            | false => exact absurd ⟨hus, hu⟩ hcond
          | false =>
            apply separatorsOK_of_no_separator
            rw [hus] at h3
            simpa using h3.symm
        simp only [literalBody, hsep, if_true, h1]
  · intro ⟨hlit, hv⟩
    simp only [literalBody] at hlit
    split_ifs at hlit with hsep
    have hloop := parseLoop_of_literalDigits _ (2 ^ w - 1) hb hmax _ 0 v false hlit hv
    rw [hloop]
    have hu : underscoreOK (c :: rest) = true := by
      rw [underscoreOK_eq c rest v hlit]
      exact hsep
    simp only [hu, Bool.true_eq_false, and_false, if_false]

/-- The function `ParseUint` returns a value without an error, or an error. -/
theorem ParseUint_cases (s : String) (base w : Nat) :
    (∃ v, ParseUint s base w = (v, none)) ∨ ∃ v err, ParseUint s base w = (v, some err) := by
  cases h : ParseUint s base w with
  | mk v e =>
    cases e with
    | none => exact Or.inl ⟨v, rfl⟩
    | some err => exact Or.inr ⟨v, err, rfl⟩

/-- A range error of `ParseUint` comes with the largest value of the width;
any other error is a syntax error. -/
theorem ParseUint_error (cs : List Char) (w v : Nat) (err : NumError) (hw0 : 0 < w)
    (hw : w ≤ 64) (h : ParseUint (String.mk cs) 0 w = (v, some err)) :
    (err.Err = .ErrRange ∧ v = 2 ^ w - 1) ∨ err.Err = .ErrSyntax := by
  cases cs with
  | nil =>
    have h0 : ParseUint (String.mk []) 0 w = (0, some (syntaxError "ParseUint" "")) := by
      rw [ParseUint]
      rfl
    rw [h0] at h
    simp only [Prod.mk.injEq, Option.some.injEq] at h
    right
    rw [← h.2]
    rfl
  | cons c rest =>
    rw [ParseUint_base0 c rest w hw0 hw] at h
    split at h
    · simp only [Prod.mk.injEq, Option.some.injEq] at h
      left
      exact ⟨by rw [← h.2]; rfl, h.1.symm⟩
    · simp only [Prod.mk.injEq, Option.some.injEq] at h
      right
      rw [← h.2]
      rfl
    · split_ifs at h
      · simp only [Prod.mk.injEq, Option.some.injEq] at h
        right
        rw [← h.2]
        rfl
      · simp at h

/-- An unsigned literal is a text that `ParseUint` reads at some width; at the
width `w` it is read when the number fits. -/
theorem ParseUint_iff_list (cs : List Char) (w v : Nat) (hw0 : 0 < w) (hw : w ≤ 64) :
    ParseUint (String.mk cs) 0 w = (v, none) ↔
      unsignedLiteral cs = some v ∧ v ≤ 2 ^ w - 1 := by
  cases cs with
  | nil =>
    have h0 : ParseUint (String.mk []) 0 w = (0, some (syntaxError "ParseUint" "")) := by
      rw [ParseUint]
      rfl
    rw [h0]
    simp [unsignedLiteral]
  | cons c rest => exact ParseUint_iff c rest w v hw0 hw

/-- What `ParseInt` makes of the result of `ParseUint`: the signed number, when
the unsigned literal denotes a number whose signed value fits `w` bits. -/
theorem parseIntFinish_iff (s : String) (neg : Bool) (rest : List Char) (w : Nat) (n : Int)
    (hw2 : 2 ≤ w) (hw : w ≤ 64) :
    parseIntFinish s neg w (ParseUint (String.mk rest) 0 w) = (n, none) ↔
      ∃ v : Nat, unsignedLiteral rest = some v ∧ n = (if neg = true then -(v : Int) else v) ∧
        -(2 : Int) ^ (w - 1) ≤ n ∧ n < (2 : Int) ^ (w - 1) := by
  have hp : (2 : Nat) ^ w = 2 ^ (w - 1) * 2 := by
    rw [← pow_succ]
    congr 1
    omega
  have hp63 : (2 : Nat) ^ (w - 1) ≤ 2 ^ 63 := Nat.pow_le_pow_right (by decide) (by omega)
  have hpos : 0 < (2 : Nat) ^ (w - 1) := by positivity
  have hcast : (((2 : Nat) ^ (w - 1) : Nat) : Int) = (2 : Int) ^ (w - 1) := by
    push_cast
    rfl
  have hwz : ¬ w = 0 := by omega
  rcases ParseUint_cases (String.mk rest) 0 w with ⟨v, hv⟩ | ⟨v, err, hv⟩
  · obtain ⟨hlit, hle⟩ := (ParseUint_iff_list rest w v (by omega) hw).mp hv
    rw [hv]
    simp only [parseIntFinish, Option.isSome_none, Bool.false_eq_true, false_and, if_false,
      hwz, hlit, Option.some.injEq]
    cases neg with
    | false =>
      simp only [true_and, Bool.false_eq_true, false_and, if_false]
      by_cases hc : v ≥ 2 ^ (w - 1)
      · simp only [hc, if_true]
        constructor
        · intro h
          simp only [Prod.mk.injEq, reduceCtorEq, and_false] at h
        · rintro ⟨v', h1, h2, h3, h4⟩
          subst h1
          omega
      · simp only [hc, if_false, Prod.mk.injEq, and_true]
        have hwr : wrapInt 64 (v : Int) = v := by
          simp only [wrapInt, show 64 - 1 = 63 from rfl]
          omega
        rw [hwr]
        constructor
        · intro h
          exact ⟨v, rfl, h.symm, by omega, by omega⟩
        · rintro ⟨v', h1, h2, _, _⟩
          subst h1
          exact h2.symm
    | true =>
      simp only [Bool.true_eq_false, false_and, if_false, true_and, if_true]
      by_cases hc : v > 2 ^ (w - 1)
      · simp only [hc, if_true]
        constructor
        · intro h
          simp only [Prod.mk.injEq, reduceCtorEq, and_false] at h
        · rintro ⟨v', h1, h2, h3, h4⟩
          subst h1
          omega
      · simp only [hc, if_false, Prod.mk.injEq, and_true]
        have hwr : wrapInt 64 (-(wrapInt 64 (v : Int))) = -(v : Int) := by
          simp only [wrapInt, show 64 - 1 = 63 from rfl]
          omega
        rw [hwr]
        constructor
        · intro h
          exact ⟨v, rfl, h.symm, by omega, by omega⟩
        · rintro ⟨v', h1, h2, _, _⟩
          subst h1
          exact h2.symm
  · have hnone : ∀ m : Nat, unsignedLiteral rest = some m → 2 ^ w - 1 < m := by
      intro m hm
      by_contra hcon
      have := (ParseUint_iff_list rest w m (by omega) hw).mpr ⟨hm, by omega⟩
      rw [hv] at this
      simp at this
    have hrhs : ¬ ∃ v : Nat, unsignedLiteral rest = some v ∧
        n = (if neg = true then -(v : Int) else v) ∧
        -(2 : Int) ^ (w - 1) ≤ n ∧ n < (2 : Int) ^ (w - 1) := by
      rintro ⟨m, h1, h2, h3, h4⟩
      have := hnone m h1
      cases neg <;> simp only [Bool.false_eq_true, if_false, if_true] at h2 <;> omega
    simp only [hrhs, iff_false]
    rw [hv]
    rcases ParseUint_error rest w v err (by omega) hw hv with ⟨he, hval⟩ | he
    · subst hval
      simp only [parseIntFinish, Option.isSome_some, Option.map_some', he, ne_eq,
        not_true_eq_false, and_false, if_false, hwz]
      cases neg with
      | false =>
        have hc : 2 ^ w - 1 ≥ 2 ^ (w - 1) := by omega
        simp [hc]
      | true =>
        have hp2 : 2 ≤ (2 : Nat) ^ (w - 1) := by
          calc 2 = 2 ^ 1 := rfl
            _ ≤ 2 ^ (w - 1) := Nat.pow_le_pow_right (by decide) (by omega)
        have hc : 2 ^ w - 1 > 2 ^ (w - 1) := by omega
        simp [hc]
    · simp [parseIntFinish, he]

/-- The function `ParseInt` with base 0 returns `n` without an error exactly
when the text is an integer literal that denotes `n` and `n` fits `w` bits. -/
theorem ParseInt_iff (cs : List Char) (w : Nat) (n : Int) (hw2 : 2 ≤ w) (hw : w ≤ 64) :
    ParseInt (String.mk cs) 0 w = (n, none) ↔
      integerLiteral cs = some n ∧ -(2 : Int) ^ (w - 1) ≤ n ∧ n < (2 : Int) ^ (w - 1) := by
  cases cs with
  | nil =>
    have h0 : ParseInt (String.mk []) 0 w = (0, some (syntaxError "ParseInt" "")) := by
      rw [ParseInt]
      rfl
    rw [h0]
    simp [integerLiteral]
  | cons c rest =>
    by_cases hm : c = '-'
    · subst hm
      rw [ParseInt_minus, parseIntFinish_iff _ _ _ _ _ hw2 hw]
      simp only [integerLiteral, if_true]
      constructor
      · rintro ⟨v, h1, h2, h3, h4⟩
        exact ⟨by simp [h1, h2], h3, h4⟩
      · rintro ⟨h1, h3, h4⟩
        cases hu : unsignedLiteral rest with
        | none => simp [hu] at h1
        | some v =>
          simp only [hu, Option.map_some', Option.some.injEq] at h1
          exact ⟨v, rfl, by simp [h1], h3, h4⟩
    · by_cases hp : c = '+'
      · subst hp
        rw [ParseInt_plus, parseIntFinish_iff _ _ _ _ _ hw2 hw]
        simp only [integerLiteral, show ¬ ('+' = '-') by decide, if_false, if_true]
        constructor
        · rintro ⟨v, h1, h2, h3, h4⟩
          exact ⟨by simp [h1, h2], h3, h4⟩
        · rintro ⟨h1, h3, h4⟩
          cases hu : unsignedLiteral rest with
          | none => simp [hu] at h1
          | some v =>
            simp only [hu, Option.map_some', Option.some.injEq] at h1
            exact ⟨v, rfl, by simp [h1], h3, h4⟩
      · rw [ParseInt_unsigned c rest 0 w hp hm, parseIntFinish_iff _ _ _ _ _ hw2 hw]
        simp only [integerLiteral, hm, hp, if_false]
        constructor
        · rintro ⟨v, h1, h2, h3, h4⟩
          exact ⟨by simp [h1, h2], h3, h4⟩
        · rintro ⟨h1, h3, h4⟩
          cases hu : unsignedLiteral (c :: rest) with
          | none => simp [hu] at h1
          | some v =>
            simp only [hu, Option.map_some', Option.some.injEq] at h1
            exact ⟨v, rfl, by simp [h1], h3, h4⟩

/-- The function `ParseInt` returns a value without an error, or an error. -/
theorem ParseInt_cases (s : String) (base w : Nat) :
    (∃ v, ParseInt s base w = (v, none)) ∨ ∃ v err, ParseInt s base w = (v, some err) := by
  cases h : ParseInt s base w with
  | mk v e =>
    cases e with
    | none => exact Or.inl ⟨v, rfl⟩
    | some err => exact Or.inr ⟨v, err, rfl⟩

theorem String_of_ppPrintln (sv : Value) (x : Data) (s : State) :
    sv.String (ppPrintln x s) = sv.String s := rfl

/-- On a signed destination location, `stringAsIntDecoder` stores the number
that the source denotes as an integer literal, when it fits the width. -/
theorem stringAsIntDecoder_ok (it : GoType) (w b : Nat) (sv : Value) (s : State) (n : Int)
    (hi : it.Kind.category = some .signed) (hw : it.Kind.size = some w)
    (hlit : integerLiteral (sv.String s).data = some n)
    (hlo : -(2 : Int) ^ (w - 1) ≤ n) (hhi : n < (2 : Int) ^ (w - 1)) :
    stringAsIntDecoder (.loc it b) sv s =
      .ok ((ppPrintln ((Value.loc it b).Interface s) s).store b (.int n)) := by
  have hw4 := signed_size_bounds it.Kind w hi hw
  have hp := (ParseInt_iff (sv.String s).data w n (by omega) (by omega)).mpr ⟨hlit, hlo, hhi⟩
  simp only [stringAsIntDecoder, Value.Typ, GoType.Bits, hw, withValue, String_of_ppPrintln,
    hp, SetInt_of_signed it w n b _ hi hw, wrapInt_of_range w n (by omega) hlo hhi]

/-- On a signed destination location, `stringAsIntDecoder` fails with
InvalidType, carrying the error of `ParseInt`, when the source is not an
integer literal whose number fits the width. -/
theorem stringAsIntDecoder_fail (it : GoType) (w b : Nat) (sv : Value) (s : State)
    (hi : it.Kind.category = some .signed) (hw : it.Kind.size = some w)
    (hno : ¬ ∃ n, integerLiteral (sv.String s).data = some n ∧
      -(2 : Int) ^ (w - 1) ≤ n ∧ n < (2 : Int) ^ (w - 1)) :
    ∃ v err, ParseInt (sv.String s) 0 w = (v, some err) ∧
      stringAsIntDecoder (.loc it b) sv s =
        .panic (.InvalidTypeError it sv.Typ err)
          (ppPrintln ((Value.loc it b).Interface s) s) := by
  have hw4 := signed_size_bounds it.Kind w hi hw
  rcases ParseInt_cases (sv.String s) 0 w with ⟨v, hv⟩ | ⟨v, err, hv⟩
  · exact absurd ⟨v, (ParseInt_iff (sv.String s).data w v (by omega) (by omega)).mp hv⟩ hno
  · refine ⟨v, err, hv, ?_⟩
    simp only [stringAsIntDecoder, Value.Typ, GoType.Bits, hw, withValue, String_of_ppPrintln,
      hv]

/-- On an unsigned destination location, `stringAsUintDecoder` stores the
number that the source denotes as an unsigned literal, when it fits the
width. -/
theorem stringAsUintDecoder_ok (ut : GoType) (w b : Nat) (sv : Value) (s : State) (v : Nat)
    (hu : ut.Kind.category = some .unsigned) (hw : ut.Kind.size = some w)
    (hlit : unsignedLiteral (sv.String s).data = some v) (hv : v ≤ 2 ^ w - 1) :
    stringAsUintDecoder (.loc ut b) sv s = .ok (s.store b (.uint v)) := by
  obtain ⟨hw0, hw64⟩ := unsigned_size_bounds ut.Kind w hu hw
  have hpos : 0 < 2 ^ w := by positivity
  have hp := (ParseUint_iff_list (sv.String s).data w v hw0 hw64).mpr ⟨hlit, hv⟩
  simp only [stringAsUintDecoder, Value.Typ, GoType.Bits, hw, withValue, hp,
    SetUint_of_unsigned ut w v b s hu hw (by omega)]

/-- On an unsigned destination location, `stringAsUintDecoder` fails with
InvalidType, carrying the error of `ParseUint`, when the source is not an
unsigned literal whose number fits the width. -/
theorem stringAsUintDecoder_fail (ut : GoType) (w b : Nat) (sv : Value) (s : State)
    (hu : ut.Kind.category = some .unsigned) (hw : ut.Kind.size = some w)
    (hno : ¬ ∃ v, unsignedLiteral (sv.String s).data = some v ∧ v ≤ 2 ^ w - 1) :
    ∃ v err, ParseUint (sv.String s) 0 w = (v, some err) ∧
      stringAsUintDecoder (.loc ut b) sv s = .panic (.InvalidTypeError ut sv.Typ err) s := by
  obtain ⟨hw0, hw64⟩ := unsigned_size_bounds ut.Kind w hu hw
  rcases ParseUint_cases (sv.String s) 0 w with ⟨v, hv⟩ | ⟨v, err, hv⟩
  · exact absurd ⟨v, (ParseUint_iff_list (sv.String s).data w v hw0 hw64).mp hv⟩ hno
  · refine ⟨v, err, hv, ?_⟩
    simp only [stringAsUintDecoder, Value.Typ, GoType.Bits, hw, withValue, hv]

/-- A text that starts with a sign is not an unsigned literal. -/
theorem unsignedLiteral_sign (c : Char) (rest : List Char) (hc : c = '-' ∨ c = '+') :
    unsignedLiteral (c :: rest) = none := by
  have h0 : ¬ c = '0' := by rcases hc with h | h <;> subst h <;> decide
  have hd : literalDigits 10 (c :: rest) 0 = none := by
    rw [literalDigits]
    rcases hc with h | h <;> subst h <;> rfl
  simp only [unsignedLiteral, h0, if_false, literalBody, hd, ite_self]

theorem String_rv (st : GoType) (x : String) (s : State) (hst : st.Kind = Kind.String) :
    (Value.rv st (.str x)).String s = x := by
  simp only [Value.String, Value.Kind, Value.Typ, hst, Value.load, Data.asString]

/-- A text made of decimal digits has well placed separators: it has none. -/
theorem separatorsOK_of_digits (ds : List Char) (ad : Bool)
    (hds : ∀ c ∈ ds, 48 ≤ c.toNat ∧ c.toNat ≤ 57) : separatorsOK ds ad = true := by
  apply separatorsOK_of_no_separator
  cases h : ds.contains '_' with
  | false => rfl
  | true =>
    have hm : '_' ∈ ds := by simpa using h
    exact absurd (hds _ hm) (by decide)

/-- A literal with the prefix `0x` or `0X` is read in base 16. -/
theorem unsignedLiteral_hex (p d : Char) (ds : List Char) (hp : p = 'x' ∨ p = 'X') :
    unsignedLiteral ('0' :: p :: d :: ds) = literalBody 16 (d :: ds) true := by
  simp only [unsignedLiteral, if_true, hp]

/-- A literal made of a leading `0` and decimal digits is read in base 8. -/
theorem unsignedLiteral_octal (ds : List Char) (hds : ∀ c ∈ ds, 48 ≤ c.toNat ∧ c.toNat ≤ 57) :
    unsignedLiteral ('0' :: ds) = literalDigits 8 ds 0 := by
  have hsep := separatorsOK_of_digits ds true hds
  cases ds with
  | nil => rfl
  | cons p r =>
    cases r with
    | nil => simp only [unsignedLiteral, if_true, literalBody, hsep]
    | cons d tl =>
      have hp := hds p (List.mem_cons_self _ _)
      have h1 : ¬ (p = 'x' ∨ p = 'X') := by
        rintro (h | h) <;> subst h <;> exact absurd hp (by decide)
      have h2 : ¬ (p = 'o' ∨ p = 'O') := by
        rintro (h | h) <;> subst h <;> exact absurd hp (by decide)
      have h3 : ¬ (p = 'b' ∨ p = 'B') := by
        rintro (h | h) <;> subst h <;> exact absurd hp (by decide)
      simp only [unsignedLiteral, if_true, h1, h2, h3, if_false, literalBody, hsep]

/-- A literal made of decimal digits, the first of them not `0`, is read in
base 10. -/
theorem unsignedLiteral_decimal (c : Char) (ds : List Char) (hc : c ≠ '0')
    (hds : ∀ x ∈ c :: ds, 48 ≤ x.toNat ∧ x.toNat ≤ 57) :
    unsignedLiteral (c :: ds) = literalDigits 10 (c :: ds) 0 := by
  have hsep := separatorsOK_of_digits (c :: ds) false hds
  simp only [unsignedLiteral, hc, if_false, literalBody, hsep, if_true]

/-- An integer literal that starts with no sign is an unsigned literal. -/
theorem integerLiteral_unsigned (c : Char) (rest : List Char) (v : Nat)
    (hm : c ≠ '-') (hp : c ≠ '+') (h : unsignedLiteral (c :: rest) = some v) :
    integerLiteral (c :: rest) = some (v : Int) := by
  simp only [integerLiteral, hm, hp, if_false, h, Option.map_some']

/-! ## Standard output -/

theorem out_SetBool (dv : Value) (x : Bool) (s : State) :
    (dv.SetBool x s).state.out = s.out := by
  cases dv with
  | rv t d => rfl
  | loc t a =>
    simp only [Value.SetBool]
    split <;> rfl

theorem out_SetInt (dv : Value) (x : Int) (s : State) :
    (dv.SetInt x s).state.out = s.out := by
  cases dv with
  | rv t d => rfl
  | loc t a =>
    simp only [Value.SetInt]
    split <;> rfl

theorem out_SetUint (dv : Value) (x : Nat) (s : State) :
    (dv.SetUint x s).state.out = s.out := by
  cases dv with
  | rv t d => rfl
  | loc t a =>
    simp only [Value.SetUint]
    split <;> rfl

theorem out_SetFloat (L : Lib) (dv : Value) (x : Float64) (s : State) :
    (dv.SetFloat L x s).state.out = s.out := by
  cases dv with
  | rv t d => rfl
  | loc t a =>
    simp only [Value.SetFloat]
    split <;> rfl

theorem out_SetString (dv : Value) (x : String) (s : State) :
    (dv.SetString x s).state.out = s.out := by
  cases dv with
  | rv t d => rfl
  | loc t a =>
    simp only [Value.SetString]
    split <;> rfl

theorem out_withValue {α : Type} (r : Except Panic α) (s : State) (set : α → Outcome)
    (h : ∀ a, (set a).state.out = s.out) : (withValue r s set).state.out = s.out := by
  cases r with
  | error e => rfl
  | ok a => exact h a

/-- Every entry of the dispatch table other than `stringAsIntDecoder` leaves
standard output as it was. -/
theorem scalarTable_out (L : Lib) (D S : Category) (h : ¬ (D = .signed ∧ S = .string))
    (dv sv : Value) (s : State) : ((scalarTable L D S) dv sv s).state.out = s.out := by
  cases D <;> cases S <;> simp only [scalarTable]
  all_goals first
    | exact out_SetString _ _ _
    | exact out_withValue _ _ _ (fun _ => by
        first
          | exact out_SetBool _ _ _
          | exact out_SetInt _ _ _
          | exact out_SetUint _ _ _
          | exact out_SetFloat _ _ _ _
          | exact out_SetString _ _ _
          | (split <;> first
              | exact out_SetInt _ _ _
              | exact out_SetUint _ _ _
              | exact out_SetFloat _ _ _ _
              | exact out_SetString _ _ _
              | rfl))
    | (simp only [stringAsBoolDecoder]
       split
       · exact out_SetBool _ _ _
       · split
         · exact out_SetBool _ _ _
         · rfl)
    | exact absurd ⟨rfl, rfl⟩ h

/-- What `floatAsIntDecoder` stores in a signed location of width `w` is the
result of the conversion `int64(f)`, truncated to `w` bits. -/
theorem floatAsIntDecoder_stores (L : Lib) (it ft : GoType) (w a : Nat) (f : Float64)
    (s : State) (hi : it.Kind.category = some .signed) (hw : it.Kind.size = some w)
    (hf : ft.Kind.category = some .floating) :
    floatAsIntDecoder L (.loc it a) (.rv ft (.float f)) s =
      .ok (s.store a (.int (wrapInt w (L.intOfFloat f)))) := by
  have hfl : (Value.rv ft (.float f)).Float s = .ok f := by
    simp only [Value.Float, Value.Kind, Value.Typ, Value.load, Data.asFloat]
    generalize ft.Kind = k at hf
    cases k <;> simp only [Kind.category, Option.some.injEq, reduceCtorEq] at hf <;> rfl
  simp only [floatAsIntDecoder, hfl, withValue, SetInt_of_signed it w _ a s hi hw]

/-! ## Claims on the integer conversions -/

/-- C14 (code at the failing input): decoding the string `"42"` into an `int`
location writes to standard output.  `stringAsIntDecoder` starts with
`pp.Println(dv.Interface())`, which reads the destination and prints it; the
sibling `stringAsUintDecoder` on the same source prints nothing. -/
theorem stringAsIntDecoder_prints :
    ∃ s1 s2,
      stringAsIntDecoder (.loc intType 0) (.rv stringType (.str "42")) intState = .ok s1 ∧
      intState.out = [] ∧ s1.out = [.iface intType (.int 0)] ∧ s1.mem 0 = .int 42 ∧
      stringAsUintDecoder (.loc uint8Type 0) (.rv stringType (.str "42")) intState = .ok s2 ∧
      s2.out = [] :=
  ⟨_, _, rfl, rfl, rfl, rfl, rfl, rfl⟩

/-- C16: boolean normalization.  For a `bool` destination location, a signed
source holding `v` and an unsigned source holding `u`: `intAsBoolDecoder`
returns and stores `true` exactly when `v ≠ 0`, and `uintAsBoolDecoder` returns
and stores `true` exactly when `u ≠ 0`. -/
theorem bool_normalization (dt st ut : GoType) (ws wu : Nat) (v : Int) (u a : Nat) (s : State)
    (hd : dt.Kind = Kind.Bool)
    (hs : st.Kind.category = some .signed) (hws : st.Kind.size = some ws)
    (hlo : -(2 : Int) ^ (ws - 1) ≤ v) (hhi : v < (2 : Int) ^ (ws - 1))
    (hu : ut.Kind.category = some .unsigned) (hwu : ut.Kind.size = some wu)
    (hU : u < 2 ^ wu) :
    intAsBoolDecoder (.loc dt a) (.rv st (.int v)) s =
      .ok (s.store a (.bool (decide (v ≠ 0)))) ∧
    uintAsBoolDecoder (.loc dt a) (.rv ut (.uint u)) s =
      .ok (s.store a (.bool (decide (u ≠ 0)))) := by
  constructor
  · simp only [intAsBoolDecoder, Int_of_signed st ws v s hs hws hlo hhi, withValue,
      Value.SetBool, hd]
  · simp only [uintAsBoolDecoder, Uint_of_unsigned ut wu u s hu hwu hU, withValue,
      Value.SetBool, hd]

/-- Witness of C16: the `int8` value -5 gives `true`, the `uint8` value 0 gives
`false`. -/
theorem bool_normalization_witness :
    intAsBoolDecoder (.loc boolType 0) (.rv int8Type (.int (-5))) intState =
      .ok (intState.store 0 (.bool true)) ∧
    uintAsBoolDecoder (.loc boolType 0) (.rv uint8Type (.uint 0)) intState =
      .ok (intState.store 0 (.bool false)) :=
  bool_normalization boolType int8Type uint8Type 8 8 (-5) 0 0 intState rfl rfl rfl
    (by decide) (by decide) rfl rfl (by decide)

/-- C17: signed to unsigned.  For a signed source holding `v` and an unsigned
destination location of width `w`, `intAsUintDecoder` returns and stores the
non-negative residue of `v` modulo `2 ^ w`. -/
theorem int_to_uint (st ut : GoType) (ws w : Nat) (v : Int) (a : Nat) (s : State)
    (hs : st.Kind.category = some .signed) (hws : st.Kind.size = some ws)
    (hlo : -(2 : Int) ^ (ws - 1) ≤ v) (hhi : v < (2 : Int) ^ (ws - 1))
    (hu : ut.Kind.category = some .unsigned) (hw : ut.Kind.size = some w) :
    intAsUintDecoder (.loc ut a) (.rv st (.int v)) s =
      .ok (s.store a (.uint (v % 2 ^ w).toNat)) := by
  have hw64 := (unsigned_size_bounds ut.Kind w hu hw).2
  simp only [intAsUintDecoder, Int_of_signed st ws v s hs hws hlo hhi, withValue,
    SetUint_of_unsigned_wrap ut w _ a s hu hw, uint64_mod w v hw64]

/-- Witness of C17: the `int8` value -1 into a `uint8` gives 255. -/
theorem int_to_uint_witness :
    intAsUintDecoder (.loc uint8Type 0) (.rv int8Type (.int (-1))) intState =
      .ok (intState.store 0 (.uint 255)) :=
  int_to_uint int8Type uint8Type 8 8 (-1) 0 intState rfl rfl (by decide) (by decide) rfl rfl

/-- C18: signed to signed.  For a signed source holding `v` and a signed
destination location of width `w`, `intAsIntDecoder` returns and stores
`wrapInt w v`: the value in the signed `w`-bit range that is congruent to `v`
modulo `2 ^ w`, the only such value, and `v` itself when `v` is in that range. -/
theorem int_to_int (st dt : GoType) (ws w : Nat) (v : Int) (a : Nat) (s : State)
    (hs : st.Kind.category = some .signed) (hws : st.Kind.size = some ws)
    (hlo : -(2 : Int) ^ (ws - 1) ≤ v) (hhi : v < (2 : Int) ^ (ws - 1))
    (hd : dt.Kind.category = some .signed) (hw : dt.Kind.size = some w) :
    intAsIntDecoder (.loc dt a) (.rv st (.int v)) s = .ok (s.store a (.int (wrapInt w v))) ∧
    -(2 : Int) ^ (w - 1) ≤ wrapInt w v ∧ wrapInt w v < (2 : Int) ^ (w - 1) ∧
    (wrapInt w v - v) % 2 ^ w = 0 ∧
    (∀ m : Int, -(2 : Int) ^ (w - 1) ≤ m → m < (2 : Int) ^ (w - 1) → (m - v) % 2 ^ w = 0 →
      m = wrapInt w v) ∧
    (-(2 : Int) ^ (w - 1) ≤ v → v < (2 : Int) ^ (w - 1) → wrapInt w v = v) := by
  have hw0 : 0 < w := by
    rcases signed_size_bounds dt.Kind w hd hw with h | h | h | h <;> omega
  obtain ⟨h1, h2, h3⟩ := wrapInt_spec w v hw0
  refine ⟨?_, h1, h2, h3, ?_, fun hl hh => wrapInt_of_range w v hw0 hl hh⟩
  · simp only [intAsIntDecoder, Int_of_signed st ws v s hs hws hlo hhi, withValue,
      SetInt_of_signed dt w v a s hd hw]
  · intro m hm1 hm2 hm3
    have hp : (2 : Int) ^ w = 2 ^ (w - 1) * 2 := by
      rw [← pow_succ]
      congr 1
      omega
    have hd1 : ((2 : Int) ^ w) ∣ (m - v) := Int.dvd_of_emod_eq_zero hm3
    have hd2 : ((2 : Int) ^ w) ∣ (wrapInt w v - v) := Int.dvd_of_emod_eq_zero h3
    have hd3 : ((2 : Int) ^ w) ∣ (m - wrapInt w v) := by
      have := dvd_sub hd1 hd2
      simpa using this
    have habs : |m - wrapInt w v| < 2 ^ w := by
      rw [abs_lt]
      constructor <;> omega
    have := Int.eq_zero_of_abs_lt_dvd hd3 habs
    omega

/-- Witness of C18: the `int64` value 300 into an `int8` gives 44. -/
theorem int_to_int_witness :
    intAsIntDecoder (.loc int8Type 0) (.rv int64Type (.int 300)) intState =
      .ok (intState.store 0 (.int 44)) ∧
    -(2 : Int) ^ (8 - 1) ≤ wrapInt 8 300 ∧ wrapInt 8 300 < (2 : Int) ^ (8 - 1) ∧
    (wrapInt 8 300 - 300) % 2 ^ 8 = 0 ∧
    (∀ m : Int, -(2 : Int) ^ (8 - 1) ≤ m → m < (2 : Int) ^ (8 - 1) → (m - 300) % 2 ^ 8 = 0 →
      m = wrapInt 8 300) ∧
    (-(2 : Int) ^ (8 - 1) ≤ 300 → (300 : Int) < (2 : Int) ^ (8 - 1) → wrapInt 8 300 = 300) :=
  int_to_int int64Type int8Type 64 8 300 0 intState rfl rfl (by decide) (by decide) rfl rfl

/-- C19: for scalar types resolution depends on the categories only.  Two
destination types of one scalar category and two source types of one scalar
category resolve to the same conversion function, whatever the `allowAddr`
arguments are. -/
theorem resolution_by_category (L : Lib) (d1 d2 s1 s2 : GoType) (a1 a2 : Bool)
    (D S : Category)
    (hd1 : d1.Kind.category = some D) (hd2 : d2.Kind.category = some D)
    (hs1 : s1.Kind.category = some S) (hs2 : s2.Kind.category = some S) :
    newTypeDecoder L d1 s1 a1 = newTypeDecoder L d2 s2 a2 := by
  rw [resolve_scalar L d1 s1 a1 D S hd1 hs1, resolve_scalar L d2 s2 a2 D S hd2 hs2]

/-- Witness of C19: (`int8`, `string`) and (`int64`, `string`), with different
`allowAddr`. -/
theorem resolution_by_category_witness :
    newTypeDecoder sampleLib int8Type stringType false =
      newTypeDecoder sampleLib int64Type stringType true :=
  resolution_by_category sampleLib int8Type int64Type stringType stringType false true
    .signed .string rfl rfl rfl rfl

/-- C20: signed round trip.  For a signed type `it` of width `w` (8, 16, 32 or
64) and a value `n` in its range: `intAsStringDecoder` stores the decimal
rendering of `n` in a string location, and `stringAsIntDecoder`, applied to
that string and a destination of type `it`, returns and stores exactly `n`. -/
theorem int_string_round_trip (it strT : GoType) (w : Nat) (n : Int) (a b : Nat) (s : State)
    (hi : it.Kind.category = some .signed) (hw : it.Kind.size = some w)
    (hs : strT.Kind = Kind.String)
    (hlo : -(2 : Int) ^ (w - 1) ≤ n) (hhi : n < (2 : Int) ^ (w - 1)) :
    ∃ s1, intAsStringDecoder (.loc strT a) (.rv it (.int n)) s = .ok s1 ∧
      (Value.loc strT a).load s1 = .str (FormatInt n 10) ∧
      stringAsIntDecoder (.loc it b) (.loc strT a) s1 =
        .ok ((ppPrintln ((Value.loc it b).Interface s1) s1).store b (.int n)) := by
  have hw4 := signed_size_bounds it.Kind w hi hw
  have hw2 : 2 ≤ w := by omega
  have hw64 : w ≤ 64 := by omega
  refine ⟨s.store a (.str (FormatInt n 10)), ?_, ?_, ?_⟩
  · simp only [intAsStringDecoder, Int_of_signed it w n s hi hw hlo hhi, withValue,
      Value.SetString, hs]
  · simp [Value.load, State.store]
  · have hstr : ∀ x, (Value.loc strT a).String
        (ppPrintln x (s.store a (.str (FormatInt n 10)))) = FormatInt n 10 := by
      intro x
      simp [Value.String, Value.Kind, Value.Typ, hs, Value.load, State.store, Data.asString,
        ppPrintln]
    simp only [stringAsIntDecoder, Value.Typ, GoType.Bits, hw, withValue, hstr,
      ParseInt_FormatInt w n hw2 hw64 hlo hhi, SetInt_of_signed it w n b _ hi hw,
      wrapInt_of_range w n (by omega) hlo hhi]

/-- Witness of C20: `int8` and the value -128. -/
theorem int_string_round_trip_witness :
    ∃ s1, intAsStringDecoder (.loc stringType 0) (.rv int8Type (.int (-128))) intState =
        .ok s1 ∧
      (Value.loc stringType 0).load s1 = .str (FormatInt (-128) 10) ∧
      stringAsIntDecoder (.loc int8Type 1) (.loc stringType 0) s1 =
        .ok ((ppPrintln ((Value.loc int8Type 1).Interface s1) s1).store 1 (.int (-128))) :=
  int_string_round_trip int8Type stringType 8 (-128) 0 1 intState rfl rfl rfl
    (by decide) (by decide)

/-! ## Claims on string sources -/

/-- C11: string to signed integer.  For a signed destination location of width
`w` and a source that holds the string `sv.String s`: if the string is an
integer literal (optional sign, base detected from the prefix) that denotes a
number `n` with `-2^(w-1) ≤ n < 2^(w-1)`, `stringAsIntDecoder` returns and
stores `n`; in every other case it fails with InvalidType carrying the
destination type, the source type and the error of `ParseInt`. -/
theorem stringAsIntDecoder_literal (it : GoType) (w a : Nat) (sv : Value) (s : State)
    (hi : it.Kind.category = some .signed) (hw : it.Kind.size = some w) :
    (∀ n : Int, integerLiteral (sv.String s).data = some n →
      -(2 : Int) ^ (w - 1) ≤ n → n < (2 : Int) ^ (w - 1) →
      stringAsIntDecoder (.loc it a) sv s =
        .ok ((ppPrintln ((Value.loc it a).Interface s) s).store a (.int n))) ∧
    ((¬ ∃ n : Int, integerLiteral (sv.String s).data = some n ∧
        -(2 : Int) ^ (w - 1) ≤ n ∧ n < (2 : Int) ^ (w - 1)) →
      ∃ v err, ParseInt (sv.String s) 0 w = (v, some err) ∧
        stringAsIntDecoder (.loc it a) sv s =
          .panic (.InvalidTypeError it sv.Typ err)
            (ppPrintln ((Value.loc it a).Interface s) s)) :=
  ⟨fun n hlit hlo hhi => stringAsIntDecoder_ok it w a sv s n hi hw hlit hlo hhi,
   fun hno => stringAsIntDecoder_fail it w a sv s hi hw hno⟩

/-- Witness of C11: an `int8` destination.  The sources `"not-a-number"`, `""`
and `"128"` fail with InvalidType, `"-128"` and `"0x7f"` are stored. -/
theorem stringAsIntDecoder_literal_witness :
    ((∀ n : Int,
        integerLiteral ((Value.rv stringType (.str "-128")).String intState).data = some n →
        -(2 : Int) ^ (8 - 1) ≤ n → n < (2 : Int) ^ (8 - 1) →
        stringAsIntDecoder (.loc int8Type 0) (.rv stringType (.str "-128")) intState =
          .ok ((ppPrintln ((Value.loc int8Type 0).Interface intState) intState).store 0
            (.int n))) ∧
      ((¬ ∃ n : Int,
          integerLiteral ((Value.rv stringType (.str "-128")).String intState).data = some n ∧
          -(2 : Int) ^ (8 - 1) ≤ n ∧ n < (2 : Int) ^ (8 - 1)) →
        ∃ v err,
          ParseInt ((Value.rv stringType (.str "-128")).String intState) 0 8 = (v, some err) ∧
          stringAsIntDecoder (.loc int8Type 0) (.rv stringType (.str "-128")) intState =
            .panic (.InvalidTypeError int8Type (Value.rv stringType (.str "-128")).Typ err)
              (ppPrintln ((Value.loc int8Type 0).Interface intState) intState))) ∧
    (stringAsIntDecoder (.loc int8Type 0) (.rv stringType (.str "-128")) intState).state.mem 0 =
      .int (-128) ∧
    (stringAsIntDecoder (.loc int8Type 0) (.rv stringType (.str "0x7f")) intState).state.mem 0 =
      .int 127 ∧
    stringAsIntDecoder (.loc int8Type 0) (.rv stringType (.str "not-a-number")) intState =
      .panic (.InvalidTypeError int8Type stringType ⟨"ParseInt", "not-a-number", .ErrSyntax⟩)
        (ppPrintln (.iface int8Type (.int 0)) intState) ∧
    stringAsIntDecoder (.loc int8Type 0) (.rv stringType (.str "")) intState =
      .panic (.InvalidTypeError int8Type stringType ⟨"ParseInt", "", .ErrSyntax⟩)
        (ppPrintln (.iface int8Type (.int 0)) intState) ∧
    stringAsIntDecoder (.loc int8Type 0) (.rv stringType (.str "128")) intState =
      .panic (.InvalidTypeError int8Type stringType ⟨"ParseInt", "128", .ErrRange⟩)
        (ppPrintln (.iface int8Type (.int 0)) intState) :=
  ⟨stringAsIntDecoder_literal int8Type 8 0 (.rv stringType (.str "-128")) intState rfl rfl,
   rfl, rfl, rfl, rfl, rfl⟩

/-- C12: string to unsigned integer.  For an unsigned destination location of
width `w` and a source that holds the string `sv.String s`: if the string is an
unsigned literal (no sign, base detected from the prefix) that denotes a number
`v ≤ 2^w - 1`, `stringAsUintDecoder` returns and stores `v`; in every other
case it fails with InvalidType carrying the destination type, the source type
and the error of `ParseUint`, in the state it was called in.  A string that
starts with `-` or `+` is such a case. -/
theorem stringAsUintDecoder_literal (ut : GoType) (w a : Nat) (sv : Value) (s : State)
    (hu : ut.Kind.category = some .unsigned) (hw : ut.Kind.size = some w) :
    (∀ v : Nat, unsignedLiteral (sv.String s).data = some v → v ≤ 2 ^ w - 1 →
      stringAsUintDecoder (.loc ut a) sv s = .ok (s.store a (.uint v))) ∧
    ((¬ ∃ v : Nat, unsignedLiteral (sv.String s).data = some v ∧ v ≤ 2 ^ w - 1) →
      ∃ v err, ParseUint (sv.String s) 0 w = (v, some err) ∧
        stringAsUintDecoder (.loc ut a) sv s =
          .panic (.InvalidTypeError ut sv.Typ err) s) ∧
    (∀ (c : Char) (rest : List Char), (sv.String s).data = c :: rest → (c = '-' ∨ c = '+') →
      ∃ v err, ParseUint (sv.String s) 0 w = (v, some err) ∧
        stringAsUintDecoder (.loc ut a) sv s =
          .panic (.InvalidTypeError ut sv.Typ err) s) := by
  refine ⟨fun v hlit hv => stringAsUintDecoder_ok ut w a sv s v hu hw hlit hv,
    fun hno => stringAsUintDecoder_fail ut w a sv s hu hw hno, ?_⟩
  intro c rest hdata hc
  apply stringAsUintDecoder_fail ut w a sv s hu hw
  rintro ⟨v, hv, _⟩
  rw [hdata, unsignedLiteral_sign c rest hc] at hv
  cases hv

/-- Witness of C12: a `uint8` destination.  The sources `"-1"`, `"+1"` and
`"256"` fail with InvalidType, `"255"` is stored; the signed source -1 goes
through `intAsUintDecoder` to 255. -/
theorem stringAsUintDecoder_literal_witness :
    ((∀ v : Nat,
        unsignedLiteral ((Value.rv stringType (.str "-1")).String intState).data = some v →
        v ≤ 2 ^ 8 - 1 →
        stringAsUintDecoder (.loc uint8Type 0) (.rv stringType (.str "-1")) intState =
          .ok (intState.store 0 (.uint v))) ∧
      ((¬ ∃ v : Nat,
          unsignedLiteral ((Value.rv stringType (.str "-1")).String intState).data = some v ∧
          v ≤ 2 ^ 8 - 1) →
        ∃ v err,
          ParseUint ((Value.rv stringType (.str "-1")).String intState) 0 8 = (v, some err) ∧
          stringAsUintDecoder (.loc uint8Type 0) (.rv stringType (.str "-1")) intState =
            .panic (.InvalidTypeError uint8Type (Value.rv stringType (.str "-1")).Typ err)
              intState) ∧
      (∀ (c : Char) (rest : List Char),
        ((Value.rv stringType (.str "-1")).String intState).data = c :: rest →
        (c = '-' ∨ c = '+') →
        ∃ v err,
          ParseUint ((Value.rv stringType (.str "-1")).String intState) 0 8 = (v, some err) ∧
          stringAsUintDecoder (.loc uint8Type 0) (.rv stringType (.str "-1")) intState =
            .panic (.InvalidTypeError uint8Type (Value.rv stringType (.str "-1")).Typ err)
              intState)) ∧
    stringAsUintDecoder (.loc uint8Type 0) (.rv stringType (.str "-1")) intState =
      .panic (.InvalidTypeError uint8Type stringType ⟨"ParseUint", "-1", .ErrSyntax⟩)
        intState ∧
    stringAsUintDecoder (.loc uint8Type 0) (.rv stringType (.str "+1")) intState =
      .panic (.InvalidTypeError uint8Type stringType ⟨"ParseUint", "+1", .ErrSyntax⟩)
        intState ∧
    stringAsUintDecoder (.loc uint8Type 0) (.rv stringType (.str "256")) intState =
      .panic (.InvalidTypeError uint8Type stringType ⟨"ParseUint", "256", .ErrRange⟩)
        intState ∧
    stringAsUintDecoder (.loc uint8Type 0) (.rv stringType (.str "255")) intState =
      .ok (intState.store 0 (.uint 255)) ∧
    intAsUintDecoder (.loc uint8Type 0) (.rv int8Type (.int (-1))) intState =
      .ok (intState.store 0 (.uint 255)) :=
  ⟨stringAsUintDecoder_literal uint8Type 8 0 (.rv stringType (.str "-1")) intState rfl rfl,
   rfl, rfl, rfl, rfl, rfl⟩

/-- C13: base detection.  For an unsigned destination location of width `wu`, a
signed one of width `wi`, and a source of a string type.  A string `0x…` or
`0X…` is read in base 16: the number its digits denote in base 16 is stored.
A string made of a leading `0` and decimal digits is read in base 8: the number
the digits denote in base 8 is stored, and when they denote none in base 8 both
decoders fail with InvalidType.  A string of decimal digits that does not start
with `0` is read in base 10. -/
theorem base_detection (it ut st : GoType) (wi wu a : Nat) (s : State)
    (hi : it.Kind.category = some .signed) (hwi : it.Kind.size = some wi)
    (hu : ut.Kind.category = some .unsigned) (hwu : ut.Kind.size = some wu)
    (hst : st.Kind = Kind.String) :
    (∀ (p d : Char) (ds : List Char) (v : Nat), (p = 'x' ∨ p = 'X') →
      literalBody 16 (d :: ds) true = some v →
      (v ≤ 2 ^ wu - 1 →
        stringAsUintDecoder (.loc ut a) (.rv st (.str (String.mk ('0' :: p :: d :: ds)))) s =
          .ok (s.store a (.uint v))) ∧
      ((v : Int) < (2 : Int) ^ (wi - 1) →
        stringAsIntDecoder (.loc it a) (.rv st (.str (String.mk ('0' :: p :: d :: ds)))) s =
          .ok ((ppPrintln ((Value.loc it a).Interface s) s).store a (.int v)))) ∧
    (∀ ds : List Char, (∀ c ∈ ds, 48 ≤ c.toNat ∧ c.toNat ≤ 57) →
      (∀ v : Nat, literalDigits 8 ds 0 = some v →
        (v ≤ 2 ^ wu - 1 →
          stringAsUintDecoder (.loc ut a) (.rv st (.str (String.mk ('0' :: ds)))) s =
            .ok (s.store a (.uint v))) ∧
        ((v : Int) < (2 : Int) ^ (wi - 1) →
          stringAsIntDecoder (.loc it a) (.rv st (.str (String.mk ('0' :: ds)))) s =
            .ok ((ppPrintln ((Value.loc it a).Interface s) s).store a (.int v)))) ∧
      (literalDigits 8 ds 0 = none →
        (∃ err, stringAsUintDecoder (.loc ut a) (.rv st (.str (String.mk ('0' :: ds)))) s =
          .panic (.InvalidTypeError ut st err) s) ∧
        (∃ err, stringAsIntDecoder (.loc it a) (.rv st (.str (String.mk ('0' :: ds)))) s =
          .panic (.InvalidTypeError it st err)
            (ppPrintln ((Value.loc it a).Interface s) s)))) ∧
    (∀ (c : Char) (ds : List Char) (v : Nat), c ≠ '0' →
      (∀ x ∈ c :: ds, 48 ≤ x.toNat ∧ x.toNat ≤ 57) →
      literalDigits 10 (c :: ds) 0 = some v →
      (v ≤ 2 ^ wu - 1 →
        stringAsUintDecoder (.loc ut a) (.rv st (.str (String.mk (c :: ds)))) s =
          .ok (s.store a (.uint v))) ∧
      ((v : Int) < (2 : Int) ^ (wi - 1) →
        stringAsIntDecoder (.loc it a) (.rv st (.str (String.mk (c :: ds)))) s =
          .ok ((ppPrintln ((Value.loc it a).Interface s) s).store a (.int v)))) := by
  have hlo : ∀ v : Nat, -(2 : Int) ^ (wi - 1) ≤ (v : Int) := by
    intro v
    have : (0 : Int) < 2 ^ (wi - 1) := by positivity
    omega
  have hzero : '0' ≠ '-' ∧ '0' ≠ '+' := by decide
  have hdigit : ∀ c : Char, (48 ≤ c.toNat ∧ c.toNat ≤ 57) → c ≠ '-' ∧ c ≠ '+' := by
    intro c hc
    constructor <;> intro h <;> subst h <;> exact absurd hc (by decide)
  refine ⟨?_, ?_, ?_⟩
  · intro p d ds v hp hv
    have hlit := (unsignedLiteral_hex p d ds hp).trans hv
    constructor
    · intro hle
      exact stringAsUintDecoder_ok ut wu a _ s v hu hwu
        (by rw [String_rv st _ s hst]; exact hlit) hle
    · intro hlt
      exact stringAsIntDecoder_ok it wi a _ s v hi hwi
        (by rw [String_rv st _ s hst]
            exact integerLiteral_unsigned _ _ v hzero.1 hzero.2 hlit) (hlo v) hlt
  · intro ds hds
    have hlit := unsignedLiteral_octal ds hds
    constructor
    · intro v hv
      constructor
      · intro hle
        exact stringAsUintDecoder_ok ut wu a _ s v hu hwu
          (by rw [String_rv st _ s hst]; exact hlit.trans hv) hle
      · intro hlt
        exact stringAsIntDecoder_ok it wi a _ s v hi hwi
          (by rw [String_rv st _ s hst]
              exact integerLiteral_unsigned _ _ v hzero.1 hzero.2 (hlit.trans hv)) (hlo v) hlt
    · intro hnone
      have hun : unsignedLiteral ('0' :: ds) = none := hlit.trans hnone
      constructor
      · obtain ⟨v, err, _, h⟩ := stringAsUintDecoder_fail ut wu a
          (.rv st (.str (String.mk ('0' :: ds)))) s hu hwu
          (by rw [String_rv st _ s hst]
              rintro ⟨v, hv, _⟩
              rw [hun] at hv
              cases hv)
        exact ⟨err, h⟩
      · obtain ⟨v, err, _, h⟩ := stringAsIntDecoder_fail it wi a
          (.rv st (.str (String.mk ('0' :: ds)))) s hi hwi
          (by rw [String_rv st _ s hst]
              rintro ⟨v, hv, _⟩
              simp only [integerLiteral, hzero.1, hzero.2, if_false, hun, Option.map_none']
                at hv
              cases hv)
        exact ⟨err, h⟩
  · intro c ds v hc hds hv
    have hlit := (unsignedLiteral_decimal c ds hc hds).trans hv
    have hsign := hdigit c (hds c (List.mem_cons_self _ _))
    constructor
    · intro hle
      exact stringAsUintDecoder_ok ut wu a _ s v hu hwu
        (by rw [String_rv st _ s hst]; exact hlit) hle
    · intro hlt
      exact stringAsIntDecoder_ok it wi a _ s v hi hwi
        (by rw [String_rv st _ s hst]
            exact integerLiteral_unsigned _ _ v hsign.1 hsign.2 hlit) (hlo v) hlt

/-- Witness of C13: a `uint8` and an `int` destination.  `"0x1F"` gives 31,
`"010"` gives 8, `"08"` fails with InvalidType, `"10"` gives 10. -/
theorem base_detection_witness :
    (stringAsUintDecoder (.loc uint8Type 0) (.rv stringType (.str "0x1F")) intState =
        .ok (intState.store 0 (.uint 31)) ∧
      stringAsIntDecoder (.loc intType 0) (.rv stringType (.str "0x1F")) intState =
        .ok ((ppPrintln ((Value.loc intType 0).Interface intState) intState).store 0
          (.int 31))) ∧
    (stringAsUintDecoder (.loc uint8Type 0) (.rv stringType (.str "010")) intState =
        .ok (intState.store 0 (.uint 8)) ∧
      stringAsIntDecoder (.loc intType 0) (.rv stringType (.str "010")) intState =
        .ok ((ppPrintln ((Value.loc intType 0).Interface intState) intState).store 0
          (.int 8))) ∧
    ((∃ err, stringAsUintDecoder (.loc uint8Type 0) (.rv stringType (.str "08")) intState =
        .panic (.InvalidTypeError uint8Type stringType err) intState) ∧
      (∃ err, stringAsIntDecoder (.loc intType 0) (.rv stringType (.str "08")) intState =
        .panic (.InvalidTypeError intType stringType err)
          (ppPrintln ((Value.loc intType 0).Interface intState) intState))) ∧
    (stringAsUintDecoder (.loc uint8Type 0) (.rv stringType (.str "10")) intState =
        .ok (intState.store 0 (.uint 10)) ∧
      stringAsIntDecoder (.loc intType 0) (.rv stringType (.str "10")) intState =
        .ok ((ppPrintln ((Value.loc intType 0).Interface intState) intState).store 0
          (.int 10))) ∧
    stringAsUintDecoder (.loc uint8Type 0) (.rv stringType (.str "08")) intState =
      .panic (.InvalidTypeError uint8Type stringType ⟨"ParseUint", "08", .ErrSyntax⟩)
        intState :=
  ⟨⟨((base_detection intType uint8Type stringType 64 8 0 intState rfl rfl rfl rfl rfl).1
        'x' '1' ['F'] 31 (Or.inl rfl) rfl).1 (by decide),
    ((base_detection intType uint8Type stringType 64 8 0 intState rfl rfl rfl rfl rfl).1
        'x' '1' ['F'] 31 (Or.inl rfl) rfl).2 (by decide)⟩,
   ⟨(((base_detection intType uint8Type stringType 64 8 0 intState rfl rfl rfl rfl rfl).2.1
        ['1', '0'] (by decide)).1 8 rfl).1 (by decide),
    (((base_detection intType uint8Type stringType 64 8 0 intState rfl rfl rfl rfl rfl).2.1
        ['1', '0'] (by decide)).1 8 rfl).2 (by decide)⟩,
   ((base_detection intType uint8Type stringType 64 8 0 intState rfl rfl rfl rfl rfl).2.1
        ['8'] (by decide)).2 rfl,
   ⟨((base_detection intType uint8Type stringType 64 8 0 intState rfl rfl rfl rfl rfl).2.2
        '1' ['0'] 10 (by decide) (by decide) rfl).1 (by decide),
    ((base_detection intType uint8Type stringType 64 8 0 intState rfl rfl rfl rfl rfl).2.2
        '1' ['0'] 10 (by decide) (by decide) rfl).2 (by decide)⟩,
   rfl⟩

end Encoding
